import Mathlib

/-!
Verification development for a document merge-and-convert pipeline
(merge orchestrator, field-contract validator, DOCX render/lint helpers,
HTML sanitizer, and the two-stage HTML→DOCX conversion chain).

The JavaScript sources are shallowly embedded: pure string/JSON
computations become Lean functions; every effectful external call
(database lookup, filesystem, subprocess, templating engine, headless
browser, DOM library) is supplied as an oracle field of an environment
record, and every run is modelled as the pair of (ordered effect trace,
result).  JS byte buffers are modelled as `String` (the sources convert
to and from UTF-8 at every boundary); `Buffer.length` is modelled as
`String.length`.

Conventions for effect traces are documented next to each effect type.
-/

/-! ## Character/string helpers

All string predicates are implemented by structural recursion over
`String.data` so that concrete instances reduce inside the kernel. -/

/-- `listHasLead s pat` is true when `pat` is an initial segment of `s`. -/
def listHasLead : List Char → List Char → Bool
  | _, [] => true
  | [], _ :: _ => false
  | c :: cs, p :: ps => c == p && listHasLead cs ps

/-- Lower-case every character of a string (ASCII case folding, which is
what the `/i` regex flags and `toLowerCase` calls in the sources rely on
for the relevant inputs). -/
def lowerString (s : String) : String :=
  String.mk (s.data.map Char.toLower)

/-- `strEndsCI s suf` models a case-insensitive regex anchored at the end
of the subject, such as `/\.docx$/i` with `suf = ".docx"`. -/
def strEndsCI (s suf : String) : Bool :=
  listHasLead (lowerString s).data.reverse (lowerString suf).data.reverse

/-- Whitespace characters recognised by the `\s` regex class on the ASCII
range (space, tab, newline, carriage return, vertical tab, form feed). -/
def isJsSpaceChar (c : Char) : Bool :=
  c == ' ' || c == '\t' || c == '\n' || c == '\r' || c == '\x0b' || c == '\x0c'

/-- Keep the first occurrence of every element, dropping later duplicates:
the observable content and iteration order of a JavaScript `Set` built by
inserting the list left to right. -/
def dedupFirstAux : List String → List String → List String
  | [], _ => []
  | x :: xs, seen =>
    if seen.contains x then dedupFirstAux xs seen
    else x :: dedupFirstAux xs (x :: seen)

/-- See `dedupFirstAux`. -/
def dedupFirst (l : List String) : List String := dedupFirstAux l []

/-- Characters the merge service's filename scrub keeps: the regex class
is the complement of the replaced class in
`.replace(/[^\w.\- ]+/g, "_")`, i.e. ASCII word characters, dot, hyphen
and space. -/
def isSafeChar (c : Char) : Bool :=
  (c.isAlpha && c.toNat < 128) || c.isDigit || c == '_' || c == '.' || c == '-' || c == ' '

/-- Replace every maximal run of unsafe characters by a single
underscore.  The boolean records whether the previous character belonged
to a run already being replaced. -/
def underscoreRunsAux : List Char → Bool → List Char
  | [], _ => []
  | c :: cs, inRun =>
    if isSafeChar c then c :: underscoreRunsAux cs false
    else if inRun then underscoreRunsAux cs true
    else '_' :: underscoreRunsAux cs true

/-- `template.name.replace(/[^\w.\- ]+/g, "_")`. -/
def underscoreRuns (s : String) : String :=
  String.mk (underscoreRunsAux s.data false)

/-- `path.basename`: the part of a path after the last `/` or `\` (the
source uses it only to strip any directory component). -/
def basenameOf (s : String) : String :=
  String.mk ((s.data.reverse.takeWhile (fun c => !(c == '/' || c == '\\'))).reverse)

/-- `.replace(/\.[^.]+$/, "")`: drop the final extension when a dot is
followed by at least one non-dot character at the end of the string. -/
def stripFinalExt (s : String) : String :=
  let r := s.data.reverse
  let seg := r.takeWhile (fun c => c ≠ '.')
  if seg.isEmpty then s
  else if seg.length = r.length then s
  else String.mk ((r.drop (seg.length + 1)).reverse)

/-! ## JSON data model

The payload handed to the merge service is an arbitrary JSON value.  The
mutual encoding (a value / a list of values / a list of key-value
entries) gives us structural recursion and kernel-computable functions.
-/

mutual
inductive Json where
  | null
  | bool (b : Bool)
  | num (n : Int)
  | str (s : String)
  | arr (elems : JsonList)
  | obj (entries : JsonObj)

inductive JsonList where
  | nil
  | cons (hd : Json) (tl : JsonList)

inductive JsonObj where
  | nil
  | cons (key : String) (val : Json) (tl : JsonObj)
end

/-- Append two entry lists. -/
def JsonObj.append : JsonObj → JsonObj → JsonObj
  | .nil, o => o
  | .cons k v tl, o => .cons k v (tl.append o)

/-- The keys of an entry list, in order. -/
def JsonObj.keys : JsonObj → List String
  | .nil => []
  | .cons k _ tl => k :: tl.keys

/-- Entries of a JSON array, keyed by decimal index, as
`Object.entries` produces for a JS array. -/
def jsArrayEntries : JsonList → Nat → JsonObj
  | .nil, _ => .nil
  | .cons v tl, i => .cons (toString i) v (jsArrayEntries tl (i + 1))

/-- Entries of a string, keyed by decimal index with single-character
string values, as `Object.entries` produces for a JS string. -/
def jsStringEntries : List Char → Nat → JsonObj
  | [], _ => .nil
  | c :: cs, i => .cons (toString i) (.str (String.mk [c])) (jsStringEntries cs (i + 1))

/-- `Object.entries(obj || {})` from `flattenKeys` in the merge service:
`null`/`undefined` (and other falsy primitives) yield no entries, a
plain object yields its entries, an array yields index-keyed entries, a
string yields index-keyed character entries, and other primitives yield
no entries. -/
def jsEntries : Json → JsonObj
  | .null => .nil
  | .bool _ => .nil
  | .num _ => .nil
  | .str s => jsStringEntries s.data 0
  | .arr xs => jsArrayEntries xs 0
  | .obj kvs => kvs

/-- ``const path = prefix ? `${prefix}.${k}` : k`` — the empty string is
falsy in JS, so an empty accumulated path joins without a dot. -/
def joinKey (pre k : String) : String :=
  if pre = "" then k else pre ++ "." ++ k

mutual
/-- Contribution of one visited value at dot-path `p` inside
`flattenKeys`: a non-array object is recursed into (its own path is not
emitted), every other value — `null`, scalars and arrays included — is a
leaf recorded at `p`.  This mirrors the branch
`if (v && typeof v === "object" && !Array.isArray(v))`. -/
def flattenVal : Json → String → List String
  | .obj kvs, p => flattenObj kvs p
  | _, p => [p]

/-- The entry loop of `flattenKeys(obj, prefix)` over an entry list. -/
def flattenObj : JsonObj → String → List String
  | .nil, _ => []
  | .cons k v tl, pre => flattenVal v (joinKey pre k) ++ flattenObj tl pre
end

/-- `flattenKeys(obj, prefix = "")` from the merge service: flat list of
dot-paths for a nested value's leaf keys.  `Object.entries(obj || {})`
guards the top-level value, so `null` flattens to the empty list. -/
def flattenKeys (v : Json) (pre : String) : List String :=
  flattenObj (jsEntries v) pre

/-! ## DOCX templating (`docx-templating.js`)

The Docxtemplater engine itself is a third-party library; only its error
*shape* is relied upon by the source, and the spec fixes that interface
("the underlying templating engine may raise either a single error
object or a batch container holding multiple sub-errors").  We embed the
source's option object, error probing (`isDocxError`), normalisation
(`mapDocxDetails`) and control flow (`renderInternal`,
`renderDocxBufferOrThrow`, `lintDocxBuffer`) exactly, and quantify over
engine outcomes. -/

/-- Bytes of a document buffer (see the module docstring). -/
abbrev Bytes := String

/-- One normalised diagnostic entry:
`{ id, explanation, xtag, file, offset }` as produced by
`mapDocxDetails` (and by the strict `nullGetter`'s `details` payload).
`xtag` is the offending tag text and `file` the source XML part. -/
structure DocxDetail where
  id : Option String
  explanation : Option String
  xtag : Option String
  file : Option String
  off : Option Nat
deriving DecidableEq, Repr

/-- The `properties` object carried by a Docxtemplater-style sub-error. -/
structure DocxSubProps where
  id : Option String := none
  explanation : Option String := none
  xtag : Option String := none
  file : Option String := none
  off : Option Nat := none
deriving DecidableEq, Repr

/-- A sub-error inside a batch container (`e.properties.errors[i]`): the
source only ever reads its optional `properties`. -/
structure DocxSubError where
  props : Option DocxSubProps := none
deriving DecidableEq, Repr

/-- The `properties` object of a top-level engine error: the same fields
as a sub-error plus the optional `errors` batch array. -/
structure JsErrorProps where
  id : Option String := none
  explanation : Option String := none
  xtag : Option String := none
  file : Option String := none
  off : Option Nat := none
  errors : Option (List DocxSubError) := none
deriving DecidableEq, Repr

/-- A JavaScript error value as observed by this code base: a message,
an optional Docxtemplater-style `properties` object, and the optional
`details` array that the strict `nullGetter` attaches. -/
structure JsError where
  message : String := ""
  props : Option JsErrorProps := none
  details : Option (List DocxDetail) := none
deriving DecidableEq, Repr

/-- JS truthiness of an optional string property (`undefined` and the
empty string are falsy). -/
def jsTruthyStr : Option String → Bool
  | none => false
  | some s => s ≠ ""

/-- `isDocxError(e)`: `!!(e && e.properties && (e.properties.errors ||
e.properties.id))`.  An array value is always truthy in JS, so the
`errors` disjunct tests presence only. -/
def isDocxError (e : JsError) : Bool :=
  match e.props with
  | none => false
  | some p => p.errors.isSome || jsTruthyStr p.id

/-- The detail extracted from one element of the normalisation list:
`{ id: er.properties?.id, explanation: ..., xtag: ..., file: ...,
offset: ... }` for a batch sub-error. -/
def subDetail (er : DocxSubError) : DocxDetail :=
  match er.props with
  | some q => ⟨q.id, q.explanation, q.xtag, q.file, q.off⟩
  | none => ⟨none, none, none, none, none⟩

/-- The same extraction applied to the top-level error itself (the
`[e]` fallback branch of `mapDocxDetails`). -/
def topDetail (e : JsError) : DocxDetail :=
  match e.props with
  | some p => ⟨p.id, p.explanation, p.xtag, p.file, p.off⟩
  | none => ⟨none, none, none, none, none⟩

/-- `mapDocxDetails(e)`: normalise a single error object or a batch
container to one flat list of diagnostics
(`Array.isArray(e.properties?.errors) ? e.properties.errors : [e]`,
then the field extraction above). -/
def mapDocxDetails (e : JsError) : List DocxDetail :=
  match e.props with
  | some p =>
    match p.errors with
    | some errs => errs.map subDetail
    | none => [topDetail e]
  | none => [topDetail e]

/-- What a `nullGetter` hook does when a tag resolves to
null/undefined. -/
inductive NullGetterBehavior where
  | throws (e : JsError)
  | returns (s : String)

/-- The Docxtemplater option object built in `DOCX_OPTIONS` (plus the
lint-mode override of `nullGetter`).  The delimiters are the
double-brace Mustache-style pair. -/
structure DocxOptions where
  paragraphLoop : Bool
  linebreaks : Bool
  delimStart : String
  delimEnd : String
  nullGetter : String → NullGetterBehavior

/-- `DOCX_OPTIONS`: `paragraphLoop`/`linebreaks` on, double-brace
delimiters, and the strict `nullGetter` that throws an
`Error("TEMPLATE_PARSE_ERROR")` carrying a one-entry `details` array
naming the undefined tag. -/
def DOCX_OPTIONS : DocxOptions :=
  { paragraphLoop := true
    linebreaks := true
    delimStart := "\x7b\x7b"
    delimEnd := "\x7d\x7d"
    nullGetter := fun tag =>
      .throws
        { message := "TEMPLATE_PARSE_ERROR"
          details := some [⟨some "undefined_tag",
            some ("Tag \"" ++ tag ++ "\" is undefined"), none, none, none⟩] } }

/-- The option object chosen inside `renderInternal`:
`allowNulls ? { ...DOCX_OPTIONS, nullGetter: () => "" } : DOCX_OPTIONS`. -/
def docxOptsFor (allowNulls : Bool) : DocxOptions :=
  if allowNulls then { DOCX_OPTIONS with nullGetter := fun _ => .returns "" }
  else DOCX_OPTIONS

/-- Outcome of `doc.render(data)` followed by
`doc.getZip().generate(...)` for one (buffer, data, options) triple:
either the merged bytes, or a raised JS error. -/
inductive EngineOutcome where
  | success (merged : Bytes)
  | raised (e : JsError)

/-- Observable result of `renderInternal`: merged bytes returned, a
`TemplateParseError` thrown (with its normalised `details` list and the
original error as `cause`), or some other error propagated unchanged. -/
inductive RenderResult where
  | ok (merged : Bytes)
  | templateParseError (details : List DocxDetail) (cause : JsError)
  | rethrown (e : JsError)
deriving DecidableEq, Repr

/-- `renderInternal(buffer, data, { allowNulls })`.
`zipOutcome` is the outcome of `new PizZip(buffer)` (outside the
`try`, so its errors propagate raw); `engine` gives the outcome of the
render/generate calls for the chosen option object.  A raised error
that probes as a Docxtemplater error is normalised into a
`TemplateParseError`; anything else is rethrown unchanged. -/
def renderInternal (allowNulls : Bool) (zipOutcome : Except JsError Unit)
    (engine : DocxOptions → EngineOutcome) : RenderResult :=
  match zipOutcome with
  | .error e => .rethrown e
  | .ok _ =>
    match engine (docxOptsFor allowNulls) with
    | .success merged => .ok merged
    | .raised e =>
      if isDocxError e then .templateParseError (mapDocxDetails e) e
      else .rethrown e

/-- `renderDocxBufferOrThrow(templateBuffer, data)`: the strict public
merge entry point, `renderInternal` without `allowNulls`. -/
def renderDocxBufferOrThrow (zipOutcome : Except JsError Unit)
    (engine : DocxOptions → EngineOutcome) : RenderResult :=
  renderInternal false zipOutcome engine

/-- `lintDocxBuffer(buffer)`: render with `allowNulls: true`, return
`[]` on success, the `TemplateParseError` details on a template
problem, and a minimal `unknown_error` entry for any other exception.
Every branch returns; the function never throws. -/
def lintDocxBuffer (zipOutcome : Except JsError Unit)
    (engine : DocxOptions → EngineOutcome) : List DocxDetail :=
  match renderInternal true zipOutcome engine with
  | .ok _ => []
  | .templateParseError ds _ => ds
  | .rethrown e => [⟨some "unknown_error", some e.message, none, none, none⟩]

/-- Modelled from the spec: the templating engine (a third-party
library, not part of this repository) surfaces template-content
failures — an unresolved placeholder under the strict policy, or
malformed delimiter/tag markup — as "either a single error object or a
batch container holding multiple sub-errors", i.e. an error whose
`properties` carry a truthy `id` or a non-empty `errors` array. -/
def DocxShapedRaise (e : JsError) : Prop :=
  ∃ p, e.props = some p ∧
    ((∃ l, p.errors = some l ∧ l ≠ []) ∨
     (p.errors = none ∧ jsTruthyStr p.id = true))

/-- Modelled from the spec: a well-formed engine never raises a batch
container with an empty sub-error array ("a batch container holding
multiple sub-errors"). -/
def EngineRaiseWF (o : EngineOutcome) : Prop :=
  ∀ e, o = .raised e → ∀ p l, e.props = some p → p.errors = some l → l ≠ []

/-! ## HTML sanitizer (`sanitizeHtmlBuffer` in the merge service)

JSDOM supplies parsing and serialisation; the source's own logic is the
DOM rewrite in between.  A DOM tree is a mutual inductive (element with
tag, attributes and children, or a text node); `parse` and `serialize`
oracles stand for `new JSDOM(...)` /
`doc.documentElement.outerHTML`. -/

mutual
inductive Node where
  | text (s : String)
  | element (tag : String) (attrs : List (String × String)) (children : NodeList)

inductive NodeList where
  | nil
  | cons (head : Node) (tail : NodeList)
end

/-- The selector `script, iframe, object, embed, link[rel='import']`
applied to one element: HTML tag matching is case-insensitive, and the
attribute selector matches a `rel` attribute (case-insensitive name)
whose value is exactly `import`. -/
def isBadElement (tag : String) (attrs : List (String × String)) : Bool :=
  let t := lowerString tag
  t == "script" || t == "iframe" || t == "object" || t == "embed" ||
    (t == "link" && attrs.any (fun a => lowerString a.1 == "rel" && a.2 == "import"))

/-- `/^on/.test(name)` on the lower-cased attribute name. -/
def isOnAttrName (name : String) : Bool :=
  match (lowerString name).data with
  | 'o' :: 'n' :: _ => true
  | _ => false

/-- `/^\s*javascript:/i.test(val)`: optional leading whitespace, then
the script scheme, case-insensitively. -/
def isJsUrl (v : String) : Bool :=
  listHasLead ((lowerString v).data.dropWhile isJsSpaceChar) "javascript:".data

/-- An attribute survives the per-element stripping loop when neither
removal rule fires: its name does not start with `on`, and it is not an
`href`/`src` whose value is a script-scheme URL. -/
def keepAttr (a : String × String) : Bool :=
  let name := lowerString a.1
  !isOnAttrName a.1 &&
    !((name == "href" || name == "src") && isJsUrl a.2)

mutual
/-- The removal pass
(`querySelectorAll("script, iframe, object, embed, link[rel='import']")
.forEach(n => n.remove())`): a matching element disappears together
with its whole subtree; `none` means this node itself was removed. -/
def removeBadNode : Node → Option Node
  | .text s => some (.text s)
  | .element tag attrs cs =>
    if isBadElement tag attrs then none
    else some (.element tag attrs (removeBadList cs))

/-- Removal pass over a child list. -/
def removeBadList : NodeList → NodeList
  | .nil => .nil
  | .cons c cs =>
    match removeBadNode c with
    | none => removeBadList cs
    | some c' => .cons c' (removeBadList cs)
end

mutual
/-- The attribute-stripping pass (`querySelectorAll("*")` with the two
`removeAttribute` rules) applied to every remaining element. -/
def stripAttrsNode : Node → Node
  | .text s => .text s
  | .element tag attrs cs => .element tag (attrs.filter keepAttr) (stripAttrsList cs)

/-- Attribute stripping over a child list. -/
def stripAttrsList : NodeList → NodeList
  | .nil => .nil
  | .cons c cs => .cons (stripAttrsNode c) (stripAttrsList cs)
end

/-- The DOM rewrite of `sanitizeHtmlBuffer` on the parsed document
element: remove disallowed elements, then strip dangerous attributes
everywhere.  `none` models the (practically unreachable) case where the
document element itself matched the removal selector, after which the
source's `doc.documentElement.outerHTML` would throw. -/
def sanitizeDom (root : Node) : Option Node :=
  (removeBadNode root).map stripAttrsNode

/-- The doctype line prefixed to the serialised output. -/
def doctypeLine : String := "<!DOCTYPE html>\n"

/-- `sanitizeHtmlBuffer(htmlBuffer)`: parse, rewrite, then reserialise
with the doctype prefix.  `parse` produces the document element of
`new JSDOM(html)` and `serialize` its `outerHTML` (both JSDOM,
modelled as oracles). -/
def sanitizeHtmlBuffer (parse : String → Node) (serialize : Node → String)
    (html : Bytes) : Except JsError Bytes :=
  match sanitizeDom (parse html) with
  | some t => .ok (doctypeLine ++ serialize t)
  | none => .error { message := "Cannot read properties of null (reading 'outerHTML')" }

/-! ## Two-stage HTML → DOCX conversion (`convertHtmlToDocxBuffer`)

Filesystem and subprocess behaviour is supplied by oracles; the effect
trace records, in program order: the created temp directory, each
*successful* staging write, each *launched* `soffice` invocation, each
*attempted* existence check and read-back, and each *attempted* removal
of the working directory (whose own failure the source swallows with an
empty `catch`). -/

/-- Effects of one conversion run (semantics per constructor above). -/
inductive CEffect where
  | mkdtemp (dir : String)
  | writeFile (p : String)
  | spawn (cmd : String) (args : List String) (cwd : String)
  | access (p : String)
  | readFile (p : String)
  | rmdir (dir : String)
deriving DecidableEq, Repr

/-- Environment for one `convertHtmlToDocxBuffer` call: the resolved
`soffice` binary (environment override / well-known path / bare name —
resolved outside this function by `resolveSoffice`), and the outcome of
every external call in program order.  `run1`/`run2` resolve to the
captured `(stdout, stderr)` pair of `runSoffice` or reject with its
enriched error. -/
structure SofficeEnv where
  sofficeBin : String
  mkdtempDir : Except JsError String
  writeInput : Except JsError Unit
  run1 : Except JsError (String × String)
  accessMid : Except JsError Unit
  run2 : Except JsError (String × String)
  readOut : Except JsError Bytes
  rmDir : Except JsError Unit

/-- Arguments of the first invocation: force the Writer HTML import
filter and convert to the intermediate open format. -/
def sofficeArgs1 (tmpDir inHtml : String) : List String :=
  ["--headless", "--infilter=HTML (StarWriter)", "--convert-to", "odt",
   "--outdir", tmpDir, inHtml]

/-- Arguments of the second invocation: intermediate format to DOCX. -/
def sofficeArgs2 (tmpDir midOdt : String) : List String :=
  ["--headless", "--convert-to", "docx", "--outdir", tmpDir, midOdt]

/-- The `finally` clause: always attempt `fs.rm(tmpDir, ...)`, and
swallow its error (`try { ... } catch {}`), so neither the primary
result nor the primary error is affected. -/
def withCleanup (tmpDir : String) (tr : List CEffect)
    (res : Except JsError Bytes) : List CEffect × Except JsError Bytes :=
  (tr ++ [.rmdir tmpDir], res)

/-- `convertHtmlToDocxBuffer(htmlBuffer)`: create a fresh temp
directory, stage the input, run `soffice` twice through the
intermediate artifact (verifying it exists between the stages), read
back the final artifact, and clean up.  The staging `fs.writeFile` sits
*before* the `try`, so its failure skips the `finally` cleanup. -/
def convertHtmlToDocxBuffer (env : SofficeEnv) :
    List CEffect × Except JsError Bytes :=
  match env.mkdtempDir with
  | .error e => ([], .error e)
  | .ok tmpDir =>
    let inHtml := tmpDir ++ "/source.html"
    let midOdt := tmpDir ++ "/source.odt"
    let outDocx := tmpDir ++ "/source.docx"
    let tr0 : List CEffect := [.mkdtemp tmpDir]
    match env.writeInput with
    | .error e => (tr0, .error e)
    | .ok _ =>
      let tr1 := tr0 ++ [.writeFile inHtml]
      let tr2 := tr1 ++ [.spawn env.sofficeBin (sofficeArgs1 tmpDir inHtml) tmpDir]
      match env.run1 with
      | .error e => withCleanup tmpDir tr2 (.error e)
      | .ok _ =>
        let tr3 := tr2 ++ [.access midOdt]
        match env.accessMid with
        | .error e => withCleanup tmpDir tr3 (.error e)
        | .ok _ =>
          let tr4 := tr3 ++ [.spawn env.sofficeBin (sofficeArgs2 tmpDir midOdt) tmpDir]
          match env.run2 with
          | .error e => withCleanup tmpDir tr4 (.error e)
          | .ok _ =>
            let tr5 := tr4 ++ [.readFile outDocx]
            match env.readOut with
            | .error e => withCleanup tmpDir tr5 (.error e)
            | .ok bytes => withCleanup tmpDir tr5 (.ok bytes)

/-- Recogniser for removal attempts in a conversion trace. -/
def isRmdirEffect : CEffect → Bool
  | .rmdir _ => true
  | _ => false

/-- Recogniser for subprocess launches in a conversion trace. -/
def isSpawnEffect : CEffect → Bool
  | .spawn _ _ _ => true
  | _ => false

/-! ## Merge orchestrator (`mergeTemplate` in the merge service)

All collaborators (Prisma, filesystem, the renderers, the converters,
JSDOM) appear as oracle fields; the run is split into `planMerge`
(everything up to and including producing the output buffer and target
path — lines before the final `fs.writeFile`) and the persistence tail
(`fs.writeFile`, then `prisma.mergeJob.create`), glued by
`mergeTemplate`.

Effect-trace conventions: `warnExtras`/`audit` are emitted console
warnings; `render` marks that a renderer was invoked (Docxtemplater or
Mustache); `writeFile` records a *successful* output write; `jobCreate`
records a *successfully created* job row. -/

/-- Template metadata fetched via
`prisma.template.findUnique({ include: { fields: true } })`: its id,
stored filename, and the declared field names
(`template.fields.map(f => f.name)`). -/
structure Template where
  id : String
  name : String
  fields : List String

/-- The row handed to `prisma.mergeJob.create`. -/
structure MergeJobData where
  templateId : String
  data : Json
  outputType : String
  status : String
  filePath : String
  userId : Option String

/-- The value returned on success: `{ jobId: job.id, filePath }`. -/
structure MergeResult where
  jobId : Nat
  filePath : String
deriving DecidableEq, Repr

/-- Which external call a propagated (non-domain) error came from. -/
inductive Stage where
  | ensureDirs
  | readTemplate
  | render
  | sanitize
  | convertDocxPdf
  | convertHtmlPdf
  | convertHtmlDocx
  | writeFile
  | jobCreate
deriving DecidableEq, Repr

/-- The failure modes of one merge attempt, as thrown by the source:
domain errors with their own message/status, plus raw errors propagated
from an external call (tagged here with the stage that threw). -/
inductive MergeError where
  | templateNotFound
  | missingRequired (missing : List String)
  | unsupportedTemplateType
  | templateParse (details : List DocxDetail)
  | badOutputTypeDocx
  | badOutputTypeHtml
  | external (stage : Stage) (e : JsError)
deriving DecidableEq, Repr

/-- `err.status` as set by the source: 422 on the missing-required
validation error and on a caught `TemplateParseError`. -/
def mergeErrorStatus : MergeError → Option Nat
  | .missingRequired _ => some 422
  | .templateParse _ => some 422
  | _ => none

/-- `err.message` of each failure mode (the missing-required message
joins the missing paths with the source's `" ,"` separator). -/
def mergeErrorMessage : MergeError → String
  | .templateNotFound => "Template not found"
  | .missingRequired missing =>
    "Missing required fields: " ++ String.intercalate " ," missing
  | .unsupportedTemplateType => "Unsupported template type. Use .docx or .html"
  | .templateParse _ => "TEMPLATE_PARSE_ERROR"
  | .badOutputTypeDocx => "outputType must be 'docx' or 'pdf'"
  | .badOutputTypeHtml => "outputType must be 'docx','pdf', or 'html' for HTML templates"
  | .external _ e => e.message

/-- Effects of one merge attempt (conventions in the section header). -/
inductive Effect where
  | warnExtras (extras : List String)
  | render
  | audit (templateId : String)
  | writeFile (p : String) (bytes : Bytes)
  | jobCreate (rec : MergeJobData)

/-- Environment of one `mergeTemplate` call.  `engine`, `parse`,
`serialize` are the templating-engine and JSDOM oracles described
above; `mustacheRender` is `Mustache.render` (never throws for the
inputs this service feeds it); converters consume the produced buffer
and yield converted bytes or a raised error; `now` is `Date.now()`. -/
structure MergeEnv where
  ensureDirs : Except JsError Unit
  findTemplate : Option Template
  templateBytes : Except JsError Bytes
  now : Nat
  zipOutcome : Except JsError Unit
  engine : DocxOptions → EngineOutcome
  mustacheRender : Bytes → Json → Bytes
  parse : String → Node
  serialize : Node → String
  convertDocxToPdf : Bytes → Except JsError Bytes
  convertHtmlToPdf : Bytes → Except JsError Bytes
  convertHtmlToDocx : Bytes → Except JsError Bytes
  writeFile : String → Bytes → Except JsError Unit
  jobCreate : MergeJobData → Except JsError Nat

/-- The caller-supplied argument object of `mergeTemplate`. -/
structure MergeArgs where
  templateId : String
  data : Json
  outputType : String
  userId : Option String
  fromWebhook : Bool

/-- `OUTPUTS_DIR` (an absolute directory in the source; only its role
as the fixed output prefix matters here). -/
def OUTPUTS_DIR : String := "outputs"

/-- `path.join(OUTPUTS_DIR, name)`. -/
def joinOutputs (name : String) : String := OUTPUTS_DIR ++ "/" ++ name

/-- `` `${safeBase}-${Date.now()}` `` where `safeBase` strips the
directory part, scrubs disallowed characters and drops the final
extension of the stored template name. -/
def outputStamp (templateName : String) (now : Nat) : String :=
  stripFinalExt (underscoreRuns (basenameOf templateName)) ++ "-" ++ toString now

/-- `userId || null`: the empty string is falsy in JS. -/
def jsOrNull : Option String → Option String
  | none => none
  | some s => if s = "" then none else some s

/-- Outcome of the planning phase: a domain/external failure, or the
chosen output path together with the final buffer to persist (plus the
template id for the job row). -/
inductive PlanOutcome where
  | fail (e : MergeError)
  | proceed (templateId : String) (filePath : String) (outBuffer : Bytes)

/-- The soft-validation warning:
`if (extras.length) console.warn("Unexpected field:", extras)`. -/
def validationTrace (allowed provided : List String) : List Effect :=
  if (provided.filter (fun k => !(allowed.contains k))).isEmpty then []
  else [.warnExtras (provided.filter (fun k => !(allowed.contains k)))]

/-- The sanitization audit warning: emitted exactly when the call came
from a webhook and sanitization changed the byte length
(`fromWebhook && finalHtml.length !== mergedHtml.length`). -/
def auditTrace (fromWebhook : Bool) (finalHtml mergedHtml : Bytes)
    (templateId : String) : List Effect :=
  if fromWebhook && finalHtml.length != mergedHtml.length
  then [.audit templateId] else []

/-- Everything `mergeTemplate` does before the final `fs.writeFile`:
ensure directories, fetch the template, soft-validate extra keys,
fatally validate missing required fields, detect `.docx`/`.html`, read
the template bytes, render (and for HTML: optionally sanitize with the
length-change audit warning), and convert to the requested output
type. -/
def planMerge (env : MergeEnv) (args : MergeArgs) : List Effect × PlanOutcome :=
  match env.ensureDirs with
  | .error e => ([], .fail (.external .ensureDirs e))
  | .ok _ =>
    match env.findTemplate with
    | none => ([], .fail .templateNotFound)
    | some tpl =>
      let allowed := dedupFirst tpl.fields
      let provided := flattenKeys args.data ""
      let tr0 := validationTrace allowed provided
      let missing := allowed.filter (fun k => !(provided.contains k))
      if !missing.isEmpty then (tr0, .fail (.missingRequired missing))
      else
        let isDocx := strEndsCI tpl.name ".docx"
        let isHtml := strEndsCI tpl.name ".html" || strEndsCI tpl.name ".htm"
        if !isDocx && !isHtml then (tr0, .fail .unsupportedTemplateType)
        else
          match env.templateBytes with
          | .error e => (tr0, .fail (.external .readTemplate e))
          | .ok buf =>
            let stamp := outputStamp tpl.name env.now
            if isDocx then
              let tr1 := tr0 ++ [.render]
              match renderDocxBufferOrThrow env.zipOutcome env.engine with
              | .templateParseError ds _ => (tr1, .fail (.templateParse ds))
              | .rethrown e => (tr1, .fail (.external .render e))
              | .ok mergedDocx =>
                if args.outputType == "docx" then
                  (tr1, .proceed tpl.id (joinOutputs (stamp ++ ".docx")) mergedDocx)
                else if args.outputType == "pdf" then
                  match env.convertDocxToPdf mergedDocx with
                  | .error e => (tr1, .fail (.external .convertDocxPdf e))
                  | .ok pdf => (tr1, .proceed tpl.id (joinOutputs (stamp ++ ".pdf")) pdf)
                else (tr1, .fail .badOutputTypeDocx)
            else
              let tr1 := tr0 ++ [.render]
              let mergedHtml := env.mustacheRender buf args.data
              let sanitized :=
                if args.fromWebhook then
                  sanitizeHtmlBuffer env.parse env.serialize mergedHtml
                else .ok mergedHtml
              match sanitized with
              | .error e => (tr1, .fail (.external .sanitize e))
              | .ok finalHtml =>
                let tr2 := tr1 ++
                  auditTrace args.fromWebhook finalHtml mergedHtml tpl.id
                if args.outputType == "pdf" then
                  match env.convertHtmlToPdf finalHtml with
                  | .error e => (tr2, .fail (.external .convertHtmlPdf e))
                  | .ok pdf => (tr2, .proceed tpl.id (joinOutputs (stamp ++ ".pdf")) pdf)
                else if args.outputType == "docx" then
                  match env.convertHtmlToDocx finalHtml with
                  | .error e => (tr2, .fail (.external .convertHtmlDocx e))
                  | .ok docx => (tr2, .proceed tpl.id (joinOutputs (stamp ++ ".docx")) docx)
                else if args.outputType == "html" then
                  (tr2, .proceed tpl.id (joinOutputs (stamp ++ ".html")) finalHtml)
                else (tr2, .fail .badOutputTypeHtml)

/-- `mergeTemplate({ templateId, data, outputType, userId, fromWebhook })`:
the planning phase, then — only when it produced a buffer —
`fs.writeFile(filePath, outBuffer)` and, only after a successful write,
`prisma.mergeJob.create({ ... status: "succeeded" ... })`, returning
`{ jobId, filePath }`. -/
def mergeTemplate (env : MergeEnv) (args : MergeArgs) :
    List Effect × Except MergeError MergeResult :=
  match planMerge env args with
  | (tr, .fail e) => (tr, .error e)
  | (tr, .proceed tplId filePath outBuffer) =>
    match env.writeFile filePath outBuffer with
    | .error e => (tr, .error (.external .writeFile e))
    | .ok _ =>
      let tr1 := tr ++ [.writeFile filePath outBuffer]
      let rec0 : MergeJobData :=
        { templateId := tplId
          data := args.data
          outputType := args.outputType
          status := "succeeded"
          filePath := filePath
          userId := jsOrNull args.userId }
      match env.jobCreate rec0 with
      | .error e => (tr1, .error (.external .jobCreate e))
      | .ok jid => (tr1 ++ [.jobCreate rec0], .ok { jobId := jid, filePath := filePath })

/-- The job rows recorded in a trace. -/
def jobRecordsOf : List Effect → List MergeJobData
  | [] => []
  | .jobCreate rec :: tr => rec :: jobRecordsOf tr
  | _ :: tr => jobRecordsOf tr

/-- The paths of successful output writes recorded in a trace. -/
def writePathsOf : List Effect → List String
  | [] => []
  | .writeFile p _ :: tr => p :: writePathsOf tr
  | _ :: tr => writePathsOf tr

/-- The written buffers recorded in a trace. -/
def writeBytesOf : List Effect → List Bytes
  | [] => []
  | .writeFile _ b :: tr => b :: writeBytesOf tr
  | _ :: tr => writeBytesOf tr

/-- The sanitization audit events recorded in a trace. -/
def auditEventsOf : List Effect → List String
  | [] => []
  | .audit tid :: tr => tid :: auditEventsOf tr
  | _ :: tr => auditEventsOf tr

/-- Recogniser for renderer invocations in a trace. -/
def isRenderEffect : Effect → Bool
  | .render => true
  | _ => false

/-! ## Well-formed dot-path keys

`flattenKeys` addresses leaves by joining key names with `.`; the
addressing is only faithful when keys are non-empty and contain no dot
(a dotted or empty key can collide with a nested path, see the C4
counterexample).  JS objects cannot carry duplicate keys at one level,
which the per-level `keys`-freshness conjunct records. -/

/-- A key that cannot collide under dot-joining: non-empty and
dot-free. -/
def goodKey (k : String) : Bool :=
  !k.data.isEmpty && k.data.all (fun c => !(c == '.'))

mutual
/-- All object keys reachable inside a value are `goodKey` and unique
per level. -/
def goodJson : Json → Bool
  | .obj kvs => goodObj kvs
  | _ => true

/-- See `goodJson`. -/
def goodObj : JsonObj → Bool
  | .nil => true
  | .cons k v tl =>
    goodKey k && !(tl.keys.contains k) && goodJson v && goodObj tl
end

/-- C4 counterexample payload: `{"a": {"b": 1}, "a.b": 2}`. -/
def dupPayload : JsonObj :=
  .cons "a" (.obj (.cons "b" (.num 1) .nil)) (.cons "a.b" (.num 2) .nil)

/-- A nested payload with well-formed keys (objects, an array leaf, a
null leaf) used to witness the amended C4 statement. -/
def samplePayload : JsonObj :=
  .cons "client"
    (.obj (.cons "name" (.str "Ada")
      (.cons "address" (.obj (.cons "city" (.str "NYC") (.cons "zip" (.str "10001") .nil))) .nil)))
    (.cons "items" (.arr (.cons (.str "A") (.cons (.str "B") .nil)))
      (.cons "note" .null .nil))

/-- A concrete Docxtemplater-shaped single error (the shape the engine
produces for an unresolved tag), used for witnesses. -/
def sampleEngineError : JsError :=
  { message := "Multi error"
    props := some
      { id := some "undefined_tag"
        explanation := some "The tag \"lastName\" is undefined"
        xtag := some "\x7b\x7blastName\x7d\x7d"
        file := some "word/document.xml"
        off := some 2345
        errors := none } }

/-- An engine whose render raises `sampleEngineError` whatever the
options. -/
def sampleEngine : DocxOptions → EngineOutcome :=
  fun _ => .raised sampleEngineError

/-- An engine whose render succeeds whatever the options. -/
def sampleEngineOk : DocxOptions → EngineOutcome :=
  fun _ => .success "MERGED_DOCX"

mutual
/-- All `(tag, attrs)` pairs of the elements of a tree, root
included. -/
def elemsOfNode : Node → List (String × List (String × String))
  | .text _ => []
  | .element tag attrs cs => (tag, attrs) :: elemsOfList cs

/-- See `elemsOfNode`. -/
def elemsOfList : NodeList → List (String × List (String × String))
  | .nil => []
  | .cons c cs => elemsOfNode c ++ elemsOfList cs
end

/-- A fixed, already-clean document tree used by witnesses. -/
def fixedTree : Node :=
  .element "html" [] (.cons (.text "hi") .nil)

/-- A constant parse oracle (used only to witness theorems whose
hypotheses pin the parse result). -/
def constParse : String → Node := fun _ => fixedTree

/-- A constant serialize oracle for witnesses. -/
def constSer : Node → String := fun _ => "X"

/-- `strHasLead s pat` is true when `pat` is an initial segment of
`s`. -/
def strHasLead (s pat : String) : Bool := listHasLead s.data pat.data

/-- Whether a conversion effect stays inside working directory `d`
(file paths under `d/`, subprocess working directory `d`, and the
directory itself for creation/removal). -/
def ceffectInDir (d : String) : CEffect → Bool
  | .mkdtemp d' => d' == d
  | .writeFile p => strHasLead p (d ++ "/")
  | .spawn _ _ cwd => cwd == d
  | .access p => strHasLead p (d ++ "/")
  | .readFile p => strHasLead p (d ++ "/")
  | .rmdir d' => d' == d

/-- A conversion environment whose staged-input write fails (e.g. the
disk fills up) after the temp directory was created. -/
def sofficeEnvWriteFail : SofficeEnv :=
  { sofficeBin := "soffice"
    mkdtempDir := .ok "/tmp/html2docx-abc123"
    writeInput := .error { message := "ENOSPC: no space left on device" }
    run1 := .ok ("", "")
    accessMid := .ok ()
    run2 := .ok ("", "")
    readOut := .ok "DOCX_BYTES"
    rmDir := .ok () }

/-- A conversion environment whose intermediate-artifact existence
check fails after a successful first invocation. -/
def sofficeEnvMidMissing : SofficeEnv :=
  { sofficeBin := "soffice"
    mkdtempDir := .ok "/tmp/html2docx-xyz789"
    writeInput := .ok ()
    run1 := .ok ("convert ok", "")
    accessMid := .error { message := "ENOENT: no such file or directory" }
    run2 := .ok ("", "")
    readOut := .ok "DOCX_BYTES"
    rmDir := .error { message := "EBUSY: resource busy" } }

/-- An HTML template fixture declaring one field. -/
def htmlTemplate : Template :=
  { id := "tpl-html-1", name := "9999-sample.html", fields := ["title"] }

/-- A DOCX template fixture declaring a dotted required field. -/
def docxTemplate : Template :=
  { id := "tpl-docx-3", name := "3333-bad.docx", fields := ["required.key"] }

/-- Payload `{"title": "Hello"}`. -/
def payloadTitle : Json := .obj (.cons "title" (.str "Hello") .nil)

/-- Payload `{"other": "x"}`. -/
def payloadOther : Json := .obj (.cons "other" (.str "x") .nil)

/-- A merge environment in which every external call succeeds.  The
Mustache output is a 17-character string and `constSer` serialises
every tree to `"X"`, so the sanitized output (`doctypeLine ++ "X"`,
also 17 characters) differs from the unsanitized merge while keeping
the same byte length. -/
def mergeEnvBase : MergeEnv :=
  { ensureDirs := .ok ()
    findTemplate := some htmlTemplate
    templateBytes := .ok "<h1>TEMPLATE</h1>"
    now := 1712345
    zipOutcome := .ok ()
    engine := sampleEngineOk
    mustacheRender := fun _ _ => "AAAAAAAAAAAAAAAAA"
    parse := constParse
    serialize := constSer
    convertDocxToPdf := fun _ => .ok "PDF_BYTES"
    convertHtmlToPdf := fun _ => .ok "PDF_BYTES"
    convertHtmlToDocx := fun _ => .ok "DOCX_BYTES"
    writeFile := fun _ _ => .ok ()
    jobCreate := fun _ => .ok 101 }

/-- Webhook-flagged (untrusted) HTML merge arguments. -/
def argsHtmlWebhook : MergeArgs :=
  { templateId := "tpl-html-1", data := payloadTitle, outputType := "html"
    userId := none, fromWebhook := true }

/-- Trusted-caller HTML merge arguments. -/
def argsHtmlTrusted : MergeArgs :=
  { templateId := "tpl-html-1", data := payloadTitle, outputType := "html"
    userId := some "u1", fromWebhook := false }

/-- Arguments whose payload misses the declared `required.key`. -/
def argsDocxMissing : MergeArgs :=
  { templateId := "tpl-docx-3", data := payloadOther, outputType := "docx"
    userId := none, fromWebhook := false }

/-- Arguments with a `null` payload. -/
def argsDocxNull : MergeArgs :=
  { templateId := "tpl-docx-3", data := .null, outputType := "docx"
    userId := none, fromWebhook := false }

/-- `mergeEnvBase` pointed at the DOCX template fixture. -/
def mergeEnvDocx : MergeEnv :=
  { mergeEnvBase with findTemplate := some docxTemplate }

-- ===================== THEOREMS =====================

/-! ## String plumbing lemmas -/

theorem strData_append (s t : String) : (s ++ t).data = s.data ++ t.data := by
  cases s; cases t; rfl

theorem strExt {s t : String} (h : s.data = t.data) : s = t := by
  cases s; cases t; exact congrArg String.mk h

theorem strNeEmpty_iff {s : String} : s ≠ "" ↔ s.data ≠ [] := by
  constructor
  · intro h hd
    exact h (strExt (by simpa using hd))
  · intro h he
    exact h (by simp [he])

theorem goodKey_props {k : String} (h : goodKey k = true) :
    k ≠ "" ∧ '.' ∉ k.data := by
  simp only [goodKey, Bool.and_eq_true, List.all_eq_true] at h
  obtain ⟨h1, h2⟩ := h
  refine ⟨strNeEmpty_iff.mpr ?_, ?_⟩
  · intro hd
    simp [hd] at h1
  · intro hm
    have := h2 '.' hm
    simp at this

theorem joinKey_empty (k : String) : joinKey "" k = k := by
  simp [joinKey]

theorem joinKey_data_of_ne (pre k : String) (h : pre ≠ "") :
    (joinKey pre k).data = pre.data ++ '.' :: k.data := by
  simp only [joinKey, if_neg h]
  rw [strData_append, strData_append]
  simp

theorem joinKey_ne_empty (pre k : String) (hk : k ≠ "") : joinKey pre k ≠ "" := by
  by_cases hp : pre = ""
  · subst hp
    simpa [joinKey_empty] using hk
  · rw [strNeEmpty_iff, joinKey_data_of_ne pre k hp]
    intro h
    rcases List.append_eq_nil.mp h with ⟨_, h2⟩
    exact List.cons_ne_nil _ _ h2

/-- First-segment injectivity of dot-joined paths: if two dot-free
segments are each followed by nothing or by a dot-headed rest and the
concatenations agree, the segments agree. -/
theorem dotfree_append_inj :
    ∀ (a b r r' : List Char), '.' ∉ a → '.' ∉ b →
      (r = [] ∨ ∃ t, r = '.' :: t) → (r' = [] ∨ ∃ t, r' = '.' :: t) →
      a ++ r = b ++ r' → a = b
  | [], [], _, _, _, _, _, _, _ => rfl
  | [], c :: b', r, r', _, hb, hr, _, he => by
    exfalso
    simp only [List.nil_append, List.cons_append] at he
    rcases hr with h | ⟨t, ht⟩
    · simp [h] at he
    · rw [ht] at he
      simp only [List.cons.injEq] at he
      obtain ⟨hc, -⟩ := he
      subst hc
      exact hb (List.mem_cons_self _ _)
  | c :: a', [], r, r', ha, _, _, hr', he => by
    exfalso
    simp only [List.nil_append, List.cons_append] at he
    rcases hr' with h | ⟨t, ht⟩
    · simp [h] at he
    · rw [ht] at he
      simp only [List.cons.injEq] at he
      obtain ⟨hc, -⟩ := he
      subst hc
      exact ha (List.mem_cons_self _ _)
  | c :: a', d :: b', r, r', ha, hb, hr, hr', he => by
    simp only [List.cons_append, List.cons.injEq] at he
    obtain ⟨hcd, htl⟩ := he
    have ha' : '.' ∉ a' := fun h => ha (List.mem_cons_of_mem _ h)
    have hb' : '.' ∉ b' := fun h => hb (List.mem_cons_of_mem _ h)
    rw [hcd, dotfree_append_inj a' b' r r' ha' hb' hr hr' htl]

/-! ## Flattening lemmas -/

theorem mem_singleton_shape (p x : String) (hx : x ∈ [p]) :
    ∃ r, x.data = p.data ++ r ∧ (r = [] ∨ ∃ t, r = '.' :: t) := by
  refine ⟨[], ?_, Or.inl rfl⟩
  rw [List.mem_singleton] at hx
  simp [hx]

theorem goodObj_keys :
    ∀ kvs : JsonObj, goodObj kvs = true → ∀ k ∈ kvs.keys, goodKey k = true
  | .nil => by intro _ k hk; simp [JsonObj.keys] at hk
  | .cons k0 v tl => by
    intro hg k hk
    simp only [goodObj, Bool.and_eq_true] at hg
    simp only [JsonObj.keys, List.mem_cons] at hk
    rcases hk with rfl | hk
    · exact hg.1.1.1
    · exact goodObj_keys tl hg.2 k hk

mutual
theorem mem_flattenVal_shape :
    ∀ (v : Json) (p x : String), goodJson v = true → p ≠ "" → x ∈ flattenVal v p →
      ∃ r, x.data = p.data ++ r ∧ (r = [] ∨ ∃ t, r = '.' :: t)
  | .null, p, x => fun _ _ hx => mem_singleton_shape p x hx
  | .bool _, p, x => fun _ _ hx => mem_singleton_shape p x hx
  | .num _, p, x => fun _ _ hx => mem_singleton_shape p x hx
  | .str _, p, x => fun _ _ hx => mem_singleton_shape p x hx
  | .arr _, p, x => fun _ _ hx => mem_singleton_shape p x hx
  | .obj kvs, p, x => fun hg hp hx => by
    have hx' : x ∈ flattenObj kvs p := hx
    obtain ⟨k2, r2, _, hdata, _⟩ :=
      mem_flattenObj_shape kvs p x (by simpa [goodJson] using hg) hx'
    refine ⟨'.' :: (k2.data ++ r2), ?_, Or.inr ⟨_, rfl⟩⟩
    rw [hdata, joinKey_data_of_ne p k2 hp]
    simp

theorem mem_flattenObj_shape :
    ∀ (kvs : JsonObj) (pre x : String), goodObj kvs = true → x ∈ flattenObj kvs pre →
      ∃ k r, k ∈ kvs.keys ∧ x.data = (joinKey pre k).data ++ r ∧
        (r = [] ∨ ∃ t, r = '.' :: t)
  | .nil, pre, x => fun _ hx => absurd hx (by simp [flattenObj])
  | .cons k v tl, pre, x => fun hg hx => by
    simp only [goodObj, Bool.and_eq_true] at hg
    obtain ⟨⟨⟨hk, _⟩, hv⟩, htl⟩ := hg
    rcases List.mem_append.mp hx with hxa | hxb
    · obtain ⟨r, hd, hr⟩ :=
        mem_flattenVal_shape v (joinKey pre k) x hv
          (joinKey_ne_empty pre k (goodKey_props hk).1) hxa
      exact ⟨k, r, List.mem_cons_self _ _, hd, hr⟩
    · obtain ⟨k', r', hk', hd, hr⟩ := mem_flattenObj_shape tl pre x htl hxb
      exact ⟨k', r', List.mem_cons_of_mem _ hk', hd, hr⟩
end

theorem contains_false_not_mem {l : List String} {k : String}
    (h : l.contains k = false) : k ∉ l := by
  intro hm
  simp at h
  exact h hm

mutual
theorem flattenVal_nodup :
    ∀ (v : Json) (p : String), goodJson v = true → (flattenVal v p).Nodup
  | .null, p => fun _ => List.nodup_singleton p
  | .bool _, p => fun _ => List.nodup_singleton p
  | .num _, p => fun _ => List.nodup_singleton p
  | .str _, p => fun _ => List.nodup_singleton p
  | .arr _, p => fun _ => List.nodup_singleton p
  | .obj kvs, p => fun hg => flattenObj_nodup kvs p (by simpa [goodJson] using hg)

theorem flattenObj_nodup :
    ∀ (kvs : JsonObj) (pre : String), goodObj kvs = true → (flattenObj kvs pre).Nodup
  | .nil, pre => fun _ => by simp [flattenObj]
  | .cons k v tl, pre => fun hg => by
    simp only [goodObj, Bool.and_eq_true] at hg
    obtain ⟨⟨⟨hk, hnc⟩, hv⟩, htl⟩ := hg
    rw [flattenObj]
    apply List.Nodup.append (flattenVal_nodup v _ hv) (flattenObj_nodup tl pre htl)
    intro x hxa hxb
    obtain ⟨hkne, hkdot⟩ := goodKey_props hk
    obtain ⟨r, hdA, hrA⟩ :=
      mem_flattenVal_shape v (joinKey pre k) x hv (joinKey_ne_empty pre k hkne) hxa
    obtain ⟨k', r', hk', hdB, hrB⟩ := mem_flattenObj_shape tl pre x htl hxb
    have hkd' := goodKey_props (goodObj_keys tl htl k' hk')
    have hmain : k.data ++ r = k'.data ++ r' := by
      by_cases hp : pre = ""
      · subst hp
        rw [joinKey_empty] at hdA hdB
        exact hdA.symm.trans hdB
      · rw [joinKey_data_of_ne pre k hp] at hdA
        rw [joinKey_data_of_ne pre k' hp] at hdB
        have hAB := hdA.symm.trans hdB
        simp only [List.append_assoc, List.cons_append] at hAB
        have h3 := List.append_cancel_left hAB
        simp only [List.cons.injEq, true_and] at h3
        exact h3
    have hkk : k = k' :=
      strExt (dotfree_append_inj k.data k'.data r r' hkdot hkd'.2 hrA hrB hmain)
    have hncf : tl.keys.contains k = false := by
      simpa using hnc
    exact contains_false_not_mem hncf (hkk ▸ hk')
end

/-- C4 (counterexample): for the payload `{"a": {"b": 1}, "a.b": 2}`,
`flattenKeys` returns the dot-path `a.b` twice, so the claim that every
leaf dot-path appears exactly once for *every* nested mapping fails: a
key containing a dot collides with a nested path. -/
theorem flattenKeys_dup_dotkey :
    flattenKeys (.obj dupPayload) "" = ["a.b", "a.b"] ∧
    ¬ (flattenKeys (.obj dupPayload) "").Nodup := by
  exact ⟨rfl, by decide⟩

/-- C4 (amended): for every nested mapping whose keys — at every level —
are non-empty, dot-free, and unique within their level, `flattenKeys`
returns each leaf dot-path exactly once regardless of nesting depth;
a key whose value is an array is a leaf at its current dot-path (arrays
are never descended into), and a key whose value is a non-array mapping
contributes only its children's dot-joined paths, not its own path. -/
theorem flattenKeys_amended :
    (∀ kvs : JsonObj, goodObj kvs = true → (flattenKeys (.obj kvs) "").Nodup) ∧
    (∀ (k : String) (xs : JsonList) (tl : JsonObj) (pre : String),
      flattenObj (.cons k (.arr xs) tl) pre = joinKey pre k :: flattenObj tl pre) ∧
    (∀ (k : String) (kvs tl : JsonObj) (pre : String),
      flattenObj (.cons k (.obj kvs) tl) pre =
        flattenObj kvs (joinKey pre k) ++ flattenObj tl pre) := by
  refine ⟨fun kvs hg => flattenObj_nodup kvs "" hg, ?_, ?_⟩
  · intro k xs tl pre
    simp [flattenObj, flattenVal]
  · intro k kvs tl pre
    simp [flattenObj, flattenVal]

/-- Witness for the amended C4 statement at a concrete nested payload
with an array leaf and a null leaf. -/
theorem flattenKeys_amended_witness :
    goodObj samplePayload = true ∧ (flattenKeys (.obj samplePayload) "").Nodup :=
  ⟨by decide, flattenKeys_amended.1 samplePayload (by decide)⟩

/-! ## DOCX render/lint theorems (C1, C9) -/

theorem mapDocxDetails_ne_nil {e : JsError} (hde : isDocxError e = true)
    (hwf : ∀ p l, e.props = some p → p.errors = some l → l ≠ []) :
    mapDocxDetails e ≠ [] := by
  cases hp : e.props with
  | none => simp [isDocxError, hp] at hde
  | some p =>
    cases herr : p.errors with
    | none => simp [mapDocxDetails, hp, herr]
    | some l =>
      have hl := hwf p l hp herr
      simp only [mapDocxDetails, hp, herr]
      intro hm
      exact hl (by simpa using hm)

theorem isDocxError_of_shaped {e : JsError} (h : DocxShapedRaise e) :
    isDocxError e = true := by
  obtain ⟨p, hp, hor⟩ := h
  rcases hor with ⟨l, hl, -⟩ | ⟨-, hid⟩
  · simp [isDocxError, hp, hl]
  · simp [isDocxError, hp, hid]

/-- C1: strict-mode DOCX rendering fails on template-content problems
with a `TemplateParseError` carrying a flat list of structured
diagnostics, and never returns merged bytes in those cases.  The strict
`nullGetter` makes a placeholder resolving to an absent value raise
(first conjunct); whenever the engine in strict mode surfaces such a
failure — in either of its two recognisable shapes, a single error
object or a non-empty batch container — `renderDocxBufferOrThrow`
throws `TemplateParseError(mapDocxDetails e)` with a non-empty
diagnostics list (each entry carrying id, explanation, offending tag
text, source part and offset fields) and does not produce output
bytes. -/
theorem strict_render_throws_templateParseError :
    (∀ tag, ∃ e, DOCX_OPTIONS.nullGetter tag = .throws e ∧
      e.message = "TEMPLATE_PARSE_ERROR") ∧
    (∀ (engine : DocxOptions → EngineOutcome) (e : JsError),
      DocxShapedRaise e → engine (docxOptsFor false) = .raised e →
      renderDocxBufferOrThrow (.ok ()) engine =
        .templateParseError (mapDocxDetails e) e ∧
      mapDocxDetails e ≠ [] ∧
      ∀ b, renderDocxBufferOrThrow (.ok ()) engine ≠ .ok b) := by
  constructor
  · intro tag
    exact ⟨_, rfl, rfl⟩
  · intro engine e hshape heng
    have hde : isDocxError e = true := isDocxError_of_shaped hshape
    have hres : renderDocxBufferOrThrow (.ok ()) engine =
        .templateParseError (mapDocxDetails e) e := by
      simp [renderDocxBufferOrThrow, renderInternal, heng, hde]
    refine ⟨hres, ?_, ?_⟩
    · refine mapDocxDetails_ne_nil hde ?_
      intro p l hp hl
      obtain ⟨p', hp', hor⟩ := hshape
      rw [hp] at hp'
      cases hp'
      rcases hor with ⟨l', hl', hne⟩ | ⟨hnone, -⟩
      · rw [hl] at hl'
        cases hl'
        exact hne
      · rw [hl] at hnone
        cases hnone
    · intro b hb
      rw [hres] at hb
      cases hb

/-- Witness for C1 at a concrete single-shaped engine error. -/
theorem strict_render_throws_templateParseError_witness :
    renderDocxBufferOrThrow (.ok ()) sampleEngine =
      .templateParseError (mapDocxDetails sampleEngineError) sampleEngineError ∧
    mapDocxDetails sampleEngineError ≠ [] :=
  ⟨(strict_render_throws_templateParseError.2 sampleEngine sampleEngineError
      ⟨_, rfl, Or.inr ⟨rfl, by decide⟩⟩ rfl).1,
   (strict_render_throws_templateParseError.2 sampleEngine sampleEngineError
      ⟨_, rfl, Or.inr ⟨rfl, by decide⟩⟩ rfl).2.1⟩

/-- C9: `lintDocxBuffer` never throws — every outcome of the underlying
calls maps to a returned list.  Lint mode overrides the strict
`nullGetter` to resolve unresolved placeholders to the empty string
(first conjunct), a successful lint-mode render (in particular a
structurally valid template with an empty data object) yields the empty
diagnostics list, and every failing outcome — engine error of either
recognisable shape, or any other exception such as a corrupt archive —
yields a non-empty diagnostics list. -/
theorem lint_never_throws :
    ∀ (zip : Except JsError Unit) (engine : DocxOptions → EngineOutcome),
      (∀ opts, EngineRaiseWF (engine opts)) →
      ((∀ tag, (docxOptsFor true).nullGetter tag = .returns "") ∧
       (∀ b, renderInternal true zip engine = .ok b →
         lintDocxBuffer zip engine = []) ∧
       ((∀ b, renderInternal true zip engine ≠ .ok b) →
         lintDocxBuffer zip engine ≠ [])) := by
  intro zip engine hwf
  refine ⟨fun tag => rfl, ?_, ?_⟩
  · intro b h
    simp [lintDocxBuffer, h]
  · intro hne
    cases zip with
    | error e =>
      simp [lintDocxBuffer, renderInternal]
    | ok u =>
      cases heng : engine (docxOptsFor true) with
      | success merged =>
        exact absurd (by simp [renderInternal, heng]) (hne merged)
      | raised e =>
        by_cases hde : isDocxError e = true
        · have hres : renderInternal true (Except.ok u) engine =
              .templateParseError (mapDocxDetails e) e := by
            simp [renderInternal, heng, hde]
          have hlint : lintDocxBuffer (Except.ok u) engine = mapDocxDetails e := by
            simp [lintDocxBuffer, hres]
          rw [hlint]
          exact mapDocxDetails_ne_nil hde
            (fun p l hp hl => hwf (docxOptsFor true) e heng p l hp hl)
        · have hres : renderInternal true (Except.ok u) engine = .rethrown e := by
            simp [renderInternal, heng, hde]
          simp [lintDocxBuffer, hres]

/-- Witness for C9: a successful lint-mode render yields `[]`, and the
concrete shaped engine failure yields a non-empty list. -/
theorem lint_never_throws_witness :
    lintDocxBuffer (.ok ()) sampleEngineOk = [] ∧
    lintDocxBuffer (.ok ()) sampleEngine ≠ [] :=
  ⟨(lint_never_throws (.ok ()) sampleEngineOk
      (fun _ e he => by cases he)).2.1 "MERGED_DOCX" rfl,
   (lint_never_throws (.ok ()) sampleEngine
      (fun _ e he => by
        cases he
        intro p l hp hl
        cases hp
        cases hl)).2.2
      (fun b hb => by
        have h : renderInternal true (.ok ()) sampleEngine =
            .templateParseError (mapDocxDetails sampleEngineError) sampleEngineError := by
          decide
        rw [h] at hb
        exact RenderResult.noConfusion hb)⟩

/-! ## Sanitizer lemmas (C6, C7) -/

theorem isBadElement_filter_false {tag : String} {attrs : List (String × String)}
    (h : isBadElement tag attrs = false) :
    isBadElement tag (attrs.filter keepAttr) = false := by
  simp only [isBadElement, Bool.or_eq_false_iff, Bool.and_eq_false_iff] at h ⊢
  refine ⟨⟨⟨⟨h.1.1.1.1, h.1.1.1.2⟩, h.1.1.2⟩, h.1.2⟩, ?_⟩
  rcases h.2 with hl | hany
  · exact Or.inl hl
  · refine Or.inr ?_
    rw [List.any_eq_false] at hany ⊢
    intro a ha
    exact hany a (List.mem_of_mem_filter ha)

theorem keepAttr_true_props {a : String × String} (h : keepAttr a = true) :
    isOnAttrName a.1 = false ∧
    ((lowerString a.1 == "href" || lowerString a.1 == "src") → isJsUrl a.2 = false) := by
  simp only [keepAttr, Bool.and_eq_true, Bool.not_eq_true'] at h
  obtain ⟨h1, h2⟩ := h
  refine ⟨h1, fun hn => ?_⟩
  rw [Bool.and_eq_false_iff] at h2
  rcases h2 with h2 | h2
  · rw [hn] at h2
    cases h2
  · exact h2

mutual
theorem removeBadNode_nobad :
    ∀ t u, removeBadNode t = some u →
      ∀ ta ∈ elemsOfNode u, isBadElement ta.1 ta.2 = false
  | .text s, u => by
    intro h ta hta
    rw [removeBadNode] at h
    cases h
    simp [elemsOfNode] at hta
  | .element tag attrs cs, u => by
    intro h ta hta
    rw [removeBadNode] at h
    by_cases hb : isBadElement tag attrs = true
    · rw [if_pos hb] at h
      cases h
    · rw [if_neg hb] at h
      cases h
      simp only [elemsOfNode, List.mem_cons] at hta
      rcases hta with rfl | hta
      · simpa using hb
      · exact removeBadList_nobad cs ta hta

theorem removeBadList_nobad :
    ∀ l, ∀ ta ∈ elemsOfList (removeBadList l), isBadElement ta.1 ta.2 = false
  | .nil => by
    intro ta hta
    simp [removeBadList, elemsOfList] at hta
  | .cons c cs => by
    intro ta hta
    rw [removeBadList] at hta
    cases hc : removeBadNode c with
    | none =>
      rw [hc] at hta
      exact removeBadList_nobad cs ta hta
    | some c' =>
      rw [hc] at hta
      simp only [elemsOfList, List.mem_append] at hta
      rcases hta with hta | hta
      · exact removeBadNode_nobad c c' hc ta hta
      · exact removeBadList_nobad cs ta hta
end

mutual
theorem elemsOf_stripNode :
    ∀ t, elemsOfNode (stripAttrsNode t) =
      (elemsOfNode t).map (fun ta => (ta.1, ta.2.filter keepAttr))
  | .text s => rfl
  | .element tag attrs cs => by
    simp [stripAttrsNode, elemsOfNode, elemsOf_stripList cs]

theorem elemsOf_stripList :
    ∀ l, elemsOfList (stripAttrsList l) =
      (elemsOfList l).map (fun ta => (ta.1, ta.2.filter keepAttr))
  | .nil => rfl
  | .cons c cs => by
    simp [stripAttrsList, elemsOfList, elemsOf_stripNode c, elemsOf_stripList cs]
end

mutual
theorem removeBadNode_of_nobad :
    ∀ t, (∀ ta ∈ elemsOfNode t, isBadElement ta.1 ta.2 = false) →
      removeBadNode t = some t
  | .text s => fun _ => rfl
  | .element tag attrs cs => by
    intro h
    have hroot : isBadElement tag attrs = false :=
      h (tag, attrs) (by simp [elemsOfNode])
    rw [removeBadNode, if_neg (by simp [hroot])]
    rw [removeBadList_of_nobad cs
      (fun ta hta => h ta (by simp [elemsOfNode, hta]))]

theorem removeBadList_of_nobad :
    ∀ l, (∀ ta ∈ elemsOfList l, isBadElement ta.1 ta.2 = false) →
      removeBadList l = l
  | .nil => fun _ => rfl
  | .cons c cs => by
    intro h
    rw [removeBadList,
      removeBadNode_of_nobad c (fun ta hta => h ta (by simp [elemsOfList, hta])),
      removeBadList_of_nobad cs (fun ta hta => h ta (by simp [elemsOfList, hta]))]
end

mutual
theorem stripAttrsNode_idem :
    ∀ t, stripAttrsNode (stripAttrsNode t) = stripAttrsNode t
  | .text s => rfl
  | .element tag attrs cs => by
    simp [stripAttrsNode, List.filter_filter, stripAttrsList_idem cs]

theorem stripAttrsList_idem :
    ∀ l, stripAttrsList (stripAttrsList l) = stripAttrsList l
  | .nil => rfl
  | .cons c cs => by
    simp [stripAttrsList, stripAttrsNode_idem c, stripAttrsList_idem cs]
end

theorem sanitizeDom_nobad {t u : Node} (h : sanitizeDom t = some u) :
    ∀ ta ∈ elemsOfNode u, isBadElement ta.1 ta.2 = false := by
  simp only [sanitizeDom, Option.map_eq_some'] at h
  obtain ⟨w, hw, rfl⟩ := h
  intro ta hta
  rw [elemsOf_stripNode w] at hta
  obtain ⟨tb, htb, rfl⟩ := List.mem_map.mp hta
  exact isBadElement_filter_false (removeBadNode_nobad t w hw tb htb)

theorem sanitizeDom_idem {t u : Node} (h : sanitizeDom t = some u) :
    sanitizeDom u = some u := by
  have hnb := sanitizeDom_nobad h
  simp only [sanitizeDom, Option.map_eq_some'] at h
  obtain ⟨w, hw, rfl⟩ := h
  rw [sanitizeDom, removeBadNode_of_nobad (stripAttrsNode w) hnb]
  simp [stripAttrsNode_idem w]

theorem sanitizeDom_attrs_kept {t u : Node} (h : sanitizeDom t = some u) :
    ∀ ta ∈ elemsOfNode u, ∀ a ∈ ta.2, keepAttr a = true := by
  simp only [sanitizeDom, Option.map_eq_some'] at h
  obtain ⟨w, hw, rfl⟩ := h
  intro ta hta a ha
  rw [elemsOf_stripNode w] at hta
  obtain ⟨tb, htb, rfl⟩ := List.mem_map.mp hta
  exact List.of_mem_filter ha

/-- C6: the sanitizer's output contains no element matching the
disallowed script-execution/cross-origin-embedding selector, no
attribute whose (case-insensitively lower-cased) name starts with the
event-handler `on` prefix, and no `href`/`src` attribute whose value is
a script-scheme URL (case-insensitive, leading whitespace tolerated);
surviving elements keep their remaining attributes unchanged — in
particular a non-script `src` value is preserved exactly. -/
theorem sanitizer_safety :
    (∀ t u, sanitizeDom t = some u →
      ∀ ta ∈ elemsOfNode u,
        isBadElement ta.1 ta.2 = false ∧
        ∀ a ∈ ta.2, isOnAttrName a.1 = false ∧
          ((lowerString a.1 == "href" || lowerString a.1 == "src") →
            isJsUrl a.2 = false)) ∧
    (∀ tag attrs cs, isBadElement tag attrs = false →
      sanitizeDom (.element tag attrs cs) =
        some (.element tag (attrs.filter keepAttr)
          (stripAttrsList (removeBadList cs))) ∧
      ∀ v, isJsUrl v = false → ("src", v) ∈ attrs →
        ("src", v) ∈ attrs.filter keepAttr) := by
  constructor
  · intro t u h ta hta
    exact ⟨sanitizeDom_nobad h ta hta,
      fun a ha => keepAttr_true_props (sanitizeDom_attrs_kept h ta hta a ha)⟩
  · intro tag attrs cs hb
    constructor
    · simp [sanitizeDom, removeBadNode, hb, stripAttrsNode]
    · intro v hjs hmem
      have h1 : isOnAttrName "src" = false := by decide
      have hkeep : keepAttr ("src", v) = true := by
        simp [keepAttr, h1, lowerString, hjs]
      exact List.mem_filter.mpr ⟨hmem, hkeep⟩

/-- Witness for C6 at a concrete element carrying a non-script remote
`src` and an `onerror` handler: the handler is stripped, the remote
`src` survives unchanged. -/
theorem sanitizer_safety_witness :
    sanitizeDom (.element "img"
        [("src", "https://cdn.example.com/x.png"), ("onerror", "boom")] .nil) =
      some (.element "img" [("src", "https://cdn.example.com/x.png")] .nil) ∧
    ("src", "https://cdn.example.com/x.png") ∈
      ([(("src" : String), ("https://cdn.example.com/x.png" : String)),
        ("onerror", "boom")].filter keepAttr) := by
  have h := sanitizer_safety.2 "img"
    [("src", "https://cdn.example.com/x.png"), ("onerror", "boom")] .nil (by decide)
  exact ⟨h.1.trans rfl, h.2 "https://cdn.example.com/x.png" (by decide)
    (List.mem_cons_self _ _)⟩

/-- C7: applying the sanitizer twice equals applying it once.  The DOM
rewrite is idempotent unconditionally (`sanitizeDom_idem`); at the byte
level the statement holds whenever the DOM library round-trips the
serialised sanitized document (parsing the emitted doctype-prefixed
serialisation back to the sanitized tree), which is the JSDOM interface
the source relies on. -/
theorem sanitize_idempotent :
    ∀ (parse : String → Node) (serialize : Node → String) (x y : Bytes) (t : Node),
      sanitizeDom (parse x) = some t →
      parse (doctypeLine ++ serialize t) = t →
      sanitizeHtmlBuffer parse serialize x = .ok y →
      sanitizeHtmlBuffer parse serialize y = .ok y := by
  intro parse serialize x y t hdom hrt hx
  have hy : y = doctypeLine ++ serialize t := by
    simp [sanitizeHtmlBuffer, hdom] at hx
    exact hx.symm
  subst hy
  simp [sanitizeHtmlBuffer, hrt, sanitizeDom_idem hdom]

/-- Witness for C7: a parse/serialize pair pinning the parsed document
to an already-clean tree; the second sanitization pass returns the
first pass's bytes unchanged. -/
theorem sanitize_idempotent_witness :
    sanitizeHtmlBuffer constParse constSer (doctypeLine ++ "X") =
      .ok (doctypeLine ++ "X") :=
  sanitize_idempotent constParse constSer "input" (doctypeLine ++ "X") fixedTree
    rfl rfl rfl

/-! ## Two-stage conversion theorems (C5) -/

theorem listHasLead_append_same :
    ∀ (a b c : List Char), listHasLead (a ++ b) (a ++ c) = listHasLead b c
  | [], _, _ => rfl
  | x :: a', b, c => by
    simp only [List.cons_append, listHasLead, beq_self_eq_true, Bool.true_and]
    exact listHasLead_append_same a' b c

theorem strHasLead_append (d b c : String) :
    strHasLead (d ++ b) (d ++ c) = listHasLead b.data c.data := by
  rw [strHasLead, strData_append, strData_append, listHasLead_append_same]

/-- C5 (counterexample): when the staged-input write fails after the
temporary directory was created, the conversion rejects without ever
attempting to remove the directory — the `fs.writeFile` sits before the
`try`/`finally`, so cleanup does not run in *every* outcome. -/
theorem convert_cleanup_counterexample :
    (convertHtmlToDocxBuffer sofficeEnvWriteFail).2 =
      .error { message := "ENOSPC: no space left on device" } ∧
    (convertHtmlToDocxBuffer sofficeEnvWriteFail).1 =
      [.mkdtemp "/tmp/html2docx-abc123"] ∧
    (convertHtmlToDocxBuffer sofficeEnvWriteFail).1.any isRmdirEffect = false :=
  ⟨rfl, rfl, rfl⟩

/-- C5 (amended): the conversion stages all of its work inside the
fresh temporary directory; it verifies that the intermediate artifact
exists before launching the second subprocess invocation, failing fast
with the check's error and launching only the first invocation when the
artifact is missing; the primary result or error never depends on the
cleanup outcome; a successful run returns exactly the bytes read back
from the final artifact; and the temporary directory removal is
attempted in every outcome *in which the staged input file was
successfully written* (if that staging write itself fails, the function
rejects without removing the directory). -/
theorem convert_cleanup_amended :
    ∀ env : SofficeEnv,
      (∀ d, env.mkdtempDir = .ok d →
        (convertHtmlToDocxBuffer env).1.all (ceffectInDir d) = true) ∧
      (∀ d, env.mkdtempDir = .ok d → env.writeInput = .ok () →
        (convertHtmlToDocxBuffer env).1.any isRmdirEffect = true) ∧
      (∀ d s e, env.mkdtempDir = .ok d → env.writeInput = .ok () →
        env.run1 = .ok s → env.accessMid = .error e →
        (convertHtmlToDocxBuffer env).1.filter isSpawnEffect =
          [.spawn env.sofficeBin (sofficeArgs1 d (d ++ "/source.html")) d] ∧
        (convertHtmlToDocxBuffer env).2 = .error e) ∧
      (∀ r, convertHtmlToDocxBuffer { env with rmDir := r } =
        convertHtmlToDocxBuffer env) ∧
      (∀ b, (convertHtmlToDocxBuffer env).2 = .ok b → env.readOut = .ok b) := by
  intro env
  refine ⟨?_, ?_, ?_, fun r => rfl, ?_⟩
  · intro d hd
    have h1 : strHasLead (d ++ "/source.html") (d ++ "/") = true := by
      rw [strHasLead_append]; decide
    have h2 : strHasLead (d ++ "/source.odt") (d ++ "/") = true := by
      rw [strHasLead_append]; decide
    have h3 : strHasLead (d ++ "/source.docx") (d ++ "/") = true := by
      rw [strHasLead_append]; decide
    unfold convertHtmlToDocxBuffer
    rw [hd]
    cases env.writeInput with
    | error e => simp [ceffectInDir]
    | ok _ =>
      cases env.run1 with
      | error e => simp [withCleanup, ceffectInDir, h1]
      | ok s1 =>
        cases env.accessMid with
        | error e => simp [withCleanup, ceffectInDir, h1, h2]
        | ok _ =>
          cases env.run2 with
          | error e => simp [withCleanup, ceffectInDir, h1, h2]
          | ok s2 =>
            cases env.readOut with
            | error e => simp [withCleanup, ceffectInDir, h1, h2, h3]
            | ok b => simp [withCleanup, ceffectInDir, h1, h2, h3]
  · intro d hd hw
    unfold convertHtmlToDocxBuffer
    rw [hd, hw]
    cases env.run1 with
    | error e => simp [withCleanup, isRmdirEffect]
    | ok s1 =>
      cases env.accessMid with
      | error e => simp [withCleanup, isRmdirEffect]
      | ok _ =>
        cases env.run2 with
        | error e => simp [withCleanup, isRmdirEffect]
        | ok s2 =>
          cases env.readOut with
          | error e => simp [withCleanup, isRmdirEffect]
          | ok b => simp [withCleanup, isRmdirEffect]
  · intro d s e hd hw h1 ha
    unfold convertHtmlToDocxBuffer
    rw [hd, hw, h1, ha]
    constructor
    · simp [withCleanup, isSpawnEffect]
    · simp [withCleanup]
  · intro b hb
    unfold convertHtmlToDocxBuffer at hb
    cases hd : env.mkdtempDir with
    | error e => rw [hd] at hb; cases hb
    | ok d =>
      rw [hd] at hb
      cases hw : env.writeInput with
      | error e => rw [hw] at hb; cases hb
      | ok _ =>
        rw [hw] at hb
        cases h1 : env.run1 with
        | error e => rw [h1] at hb; cases hb
        | ok s1 =>
          rw [h1] at hb
          cases ha : env.accessMid with
          | error e => rw [ha] at hb; cases hb
          | ok _ =>
            rw [ha] at hb
            cases h2 : env.run2 with
            | error e => rw [h2] at hb; cases hb
            | ok s2 =>
              rw [h2] at hb
              cases hr : env.readOut with
              | error e => rw [hr] at hb; cases hb
              | ok b' =>
                rw [hr] at hb
                simp only [withCleanup] at hb
                cases hb
                rfl

/-- Witness for the amended C5 statement: with a missing intermediate
artifact, only the first invocation is launched, the check's error is
the result, and cleanup is still attempted — even though the removal
itself fails. -/
theorem convert_cleanup_amended_witness :
    (convertHtmlToDocxBuffer sofficeEnvMidMissing).1.any isRmdirEffect = true ∧
    (convertHtmlToDocxBuffer sofficeEnvMidMissing).1.filter isSpawnEffect =
      [.spawn "soffice"
        (sofficeArgs1 "/tmp/html2docx-xyz789" "/tmp/html2docx-xyz789/source.html")
        "/tmp/html2docx-xyz789"] ∧
    (convertHtmlToDocxBuffer sofficeEnvMidMissing).2 =
      .error { message := "ENOENT: no such file or directory" } :=
  ⟨(convert_cleanup_amended sofficeEnvMidMissing).2.1 "/tmp/html2docx-xyz789" rfl rfl,
   ((convert_cleanup_amended sofficeEnvMidMissing).2.2.1 "/tmp/html2docx-xyz789"
      ("convert ok", "") { message := "ENOENT: no such file or directory" }
      rfl rfl rfl rfl).1,
   ((convert_cleanup_amended sofficeEnvMidMissing).2.2.1 "/tmp/html2docx-xyz789"
      ("convert ok", "") { message := "ENOENT: no such file or directory" }
      rfl rfl rfl rfl).2⟩

/-! ## Orchestrator trace lemmas -/

theorem jobRecordsOf_append :
    ∀ a b : List Effect, jobRecordsOf (a ++ b) = jobRecordsOf a ++ jobRecordsOf b
  | [], _ => rfl
  | .warnExtras e :: a', b => by simp [jobRecordsOf, jobRecordsOf_append a' b]
  | .render :: a', b => by simp [jobRecordsOf, jobRecordsOf_append a' b]
  | .audit t :: a', b => by simp [jobRecordsOf, jobRecordsOf_append a' b]
  | .writeFile p x :: a', b => by simp [jobRecordsOf, jobRecordsOf_append a' b]
  | .jobCreate r :: a', b => by simp [jobRecordsOf, jobRecordsOf_append a' b]

theorem writePathsOf_append :
    ∀ a b : List Effect, writePathsOf (a ++ b) = writePathsOf a ++ writePathsOf b
  | [], _ => rfl
  | .warnExtras e :: a', b => by simp [writePathsOf, writePathsOf_append a' b]
  | .render :: a', b => by simp [writePathsOf, writePathsOf_append a' b]
  | .audit t :: a', b => by simp [writePathsOf, writePathsOf_append a' b]
  | .writeFile p x :: a', b => by simp [writePathsOf, writePathsOf_append a' b]
  | .jobCreate r :: a', b => by simp [writePathsOf, writePathsOf_append a' b]

theorem auditEventsOf_append :
    ∀ a b : List Effect, auditEventsOf (a ++ b) = auditEventsOf a ++ auditEventsOf b
  | [], _ => rfl
  | .warnExtras e :: a', b => by simp [auditEventsOf, auditEventsOf_append a' b]
  | .render :: a', b => by simp [auditEventsOf, auditEventsOf_append a' b]
  | .audit t :: a', b => by simp [auditEventsOf, auditEventsOf_append a' b]
  | .writeFile p x :: a', b => by simp [auditEventsOf, auditEventsOf_append a' b]
  | .jobCreate r :: a', b => by simp [auditEventsOf, auditEventsOf_append a' b]

theorem jobRecordsOf_validationTrace (a p : List String) :
    jobRecordsOf (validationTrace a p) = [] := by
  unfold validationTrace
  split <;> simp [jobRecordsOf]

theorem writePathsOf_validationTrace (a p : List String) :
    writePathsOf (validationTrace a p) = [] := by
  unfold validationTrace
  split <;> simp [writePathsOf]

theorem auditEventsOf_validationTrace (a p : List String) :
    auditEventsOf (validationTrace a p) = [] := by
  unfold validationTrace
  split <;> simp [auditEventsOf]

theorem jobRecordsOf_auditTrace (w : Bool) (f m : Bytes) (tid : String) :
    jobRecordsOf (auditTrace w f m tid) = [] := by
  unfold auditTrace
  split <;> simp [jobRecordsOf]

theorem writePathsOf_auditTrace (w : Bool) (f m : Bytes) (tid : String) :
    writePathsOf (auditTrace w f m tid) = [] := by
  unfold auditTrace
  split <;> simp [writePathsOf]

theorem auditEventsOf_auditTrace (w : Bool) (f m : Bytes) (tid : String) :
    auditEventsOf (auditTrace w f m tid) =
      if w && f.length != m.length then [tid] else [] := by
  unfold auditTrace
  split <;> simp_all [auditEventsOf]

set_option maxHeartbeats 1000000 in
/-- The planning phase performs no persistence: its trace carries no
successful-write and no job-created events. -/
theorem planMerge_no_persist (env : MergeEnv) (args : MergeArgs) :
    jobRecordsOf (planMerge env args).1 = [] ∧
    writePathsOf (planMerge env args).1 = [] := by
  unfold planMerge
  dsimp only
  repeat' split
  all_goals
    simp [jobRecordsOf_append, writePathsOf_append, jobRecordsOf, writePathsOf,
      jobRecordsOf_validationTrace, writePathsOf_validationTrace,
      jobRecordsOf_auditTrace, writePathsOf_auditTrace]

/-- C2: the output file is written only after the full
render/convert/sanitize chain has succeeded (a write can only be
followed by success or by a persistence-stage failure), a job row is
recorded only after a successful write of its own output path and
always with status "succeeded", and a failed attempt never records a
job row — so no failed attempt yields an output file paired with a
"succeeded" job, nor a job record without a matching written file. -/
theorem merge_no_partial_persist :
    ∀ (env : MergeEnv) (args : MergeArgs),
      (∀ rec ∈ jobRecordsOf (mergeTemplate env args).1,
        rec.status = "succeeded" ∧
        rec.filePath ∈ writePathsOf (mergeTemplate env args).1) ∧
      (∀ e, (mergeTemplate env args).2 = .error e →
        jobRecordsOf (mergeTemplate env args).1 = []) ∧
      (writePathsOf (mergeTemplate env args).1 ≠ [] →
        (∃ r, (mergeTemplate env args).2 = .ok r) ∨
        (∃ e, (mergeTemplate env args).2 = .error (.external .jobCreate e))) := by
  intro env args
  have hpure := planMerge_no_persist env args
  rcases hpm : planMerge env args with ⟨tr, po⟩
  rw [hpm] at hpure
  obtain ⟨hjp, hwp⟩ := hpure
  simp only at hjp hwp
  cases po with
  | fail e =>
    simp [mergeTemplate, hpm, hjp, hwp]
  | proceed tid fp out =>
    cases hw : env.writeFile fp out with
    | error e =>
      simp [mergeTemplate, hpm, hw, hjp, hwp]
    | ok u =>
      cases hj : env.jobCreate
          { templateId := tid, data := args.data, outputType := args.outputType
            status := "succeeded", filePath := fp
            userId := jsOrNull args.userId } with
      | error e =>
        simp [mergeTemplate, hpm, hw, hj, jobRecordsOf_append, writePathsOf_append,
          jobRecordsOf, writePathsOf, hjp, hwp]
      | ok jid =>
        refine ⟨?_, ?_, ?_⟩
        · intro rec hrec
          simp only [mergeTemplate, hpm, hw, hj, jobRecordsOf_append, jobRecordsOf,
            hjp, List.nil_append, List.append_nil] at hrec
          simp only [mergeTemplate, hpm, hw, hj, writePathsOf_append, writePathsOf,
            hwp, List.nil_append, List.append_nil]
          cases hrec with
          | head => exact ⟨rfl, by simp⟩
          | tail _ h => cases h
        · intro e he
          simp only [mergeTemplate, hpm, hw, hj] at he
          cases he
        · intro _
          exact Or.inl ⟨{ jobId := jid, filePath := fp },
            by simp [mergeTemplate, hpm, hw, hj]⟩

/-- Witness for C2 at a fully successful HTML merge: the single
recorded job row has status "succeeded" and its path matches the
written output file. -/
theorem merge_no_partial_persist_witness :
    ({ templateId := "tpl-html-1", data := payloadTitle, outputType := "html"
       status := "succeeded"
       filePath := joinOutputs (outputStamp "9999-sample.html" 1712345 ++ ".html")
       userId := none } : MergeJobData).status = "succeeded" ∧
    ({ templateId := "tpl-html-1", data := payloadTitle, outputType := "html"
       status := "succeeded"
       filePath := joinOutputs (outputStamp "9999-sample.html" 1712345 ++ ".html")
       userId := none } : MergeJobData).filePath ∈
      writePathsOf (mergeTemplate mergeEnvBase argsHtmlWebhook).1 :=
  (merge_no_partial_persist mergeEnvBase argsHtmlWebhook).1 _ (List.Mem.head _)

/-! ## Missing-required validation (C3, C10) -/

theorem isEmpty_false_of_ne_nil {α : Type} {l : List α} (h : l ≠ []) :
    l.isEmpty = false := by
  cases l with
  | nil => exact absurd rfl h
  | cons a t => rfl

theorem planMerge_missing_eq (env : MergeEnv) (args : MergeArgs) (tpl : Template)
    (h1 : env.ensureDirs = .ok ()) (h2 : env.findTemplate = some tpl)
    (hm : (dedupFirst tpl.fields).filter
        (fun k => !((flattenKeys args.data "").contains k)) ≠ []) :
    planMerge env args =
      (validationTrace (dedupFirst tpl.fields) (flattenKeys args.data ""),
       .fail (.missingRequired ((dedupFirst tpl.fields).filter
         (fun k => !((flattenKeys args.data "").contains k))))) := by
  unfold planMerge
  rw [h1, h2]
  dsimp only
  rw [if_pos]
  rw [isEmpty_false_of_ne_nil hm]
  rfl

theorem validationTrace_no_render (a p : List String) :
    (validationTrace a p).all (fun ef => !isRenderEffect ef) = true := by
  unfold validationTrace
  split <;> simp [isRenderEffect]

theorem mergeTemplate_error_inv (env : MergeEnv) (args : MergeArgs) (e : MergeError) :
    (mergeTemplate env args).2 = .error e →
    (planMerge env args).2 = .fail e ∨
    (∃ e', e = .external .writeFile e') ∨
    (∃ e', e = .external .jobCreate e') := by
  intro h
  rcases hpm : planMerge env args with ⟨tr, po⟩
  cases po with
  | fail e0 =>
    simp only [mergeTemplate, hpm] at h
    cases h
    exact Or.inl (by simp [hpm])
  | proceed tid fp out =>
    cases hw : env.writeFile fp out with
    | error ew =>
      simp only [mergeTemplate, hpm, hw] at h
      cases h
      exact Or.inr (Or.inl ⟨ew, rfl⟩)
    | ok u =>
      cases hj : env.jobCreate
          { templateId := tid, data := args.data, outputType := args.outputType
            status := "succeeded", filePath := fp
            userId := jsOrNull args.userId } with
      | error ej =>
        simp only [mergeTemplate, hpm, hw, hj] at h
        cases h
        exact Or.inr (Or.inr ⟨ej, rfl⟩)
      | ok jid =>
        simp only [mergeTemplate, hpm, hw, hj] at h
        cases h

set_option maxHeartbeats 1000000 in
theorem planMerge_fields_nil_no_missing (env : MergeEnv) (args : MergeArgs)
    (tpl : Template) (h2 : env.findTemplate = some tpl) (hf : tpl.fields = []) :
    ∀ m, (planMerge env args).2 ≠ .fail (.missingRequired m) := by
  intro m
  unfold planMerge
  cases env.ensureDirs with
  | error e => simp
  | ok u =>
    rw [h2]
    dsimp only
    rw [hf]
    repeat' split
    all_goals simp_all [dedupFirst, dedupFirstAux]

theorem contains_true_mem {l : List String} {k : String}
    (h : l.contains k = true) : k ∈ l := by
  simpa using h

theorem mem_dedupFirstAux :
    ∀ (l seen : List String) (f : String), f ∈ l → f ∉ seen →
      f ∈ dedupFirstAux l seen
  | [], _, f => by intro h _; cases h
  | x :: xs, seen, f => by
    intro hf hns
    unfold dedupFirstAux
    cases hc : seen.contains x with
    | true =>
      simp only [if_pos rfl]
      rcases List.mem_cons.mp hf with rfl | hf'
      · exact absurd (contains_true_mem hc) hns
      · exact mem_dedupFirstAux xs seen f hf' hns
    | false =>
      rw [if_neg (show ¬(false = true) by decide)]
      rcases List.mem_cons.mp hf with rfl | hf'
      · exact List.mem_cons_self _ _
      · by_cases hfx : f = x
        · subst hfx
          exact List.mem_cons_self _ _
        · refine List.mem_cons_of_mem _ (mem_dedupFirstAux xs (x :: seen) f hf' ?_)
          intro hmem
          rcases List.mem_cons.mp hmem with h | h
          · exact hfx h
          · exact hns h

theorem mem_dedupFirst {l : List String} {f : String} (h : f ∈ l) :
    f ∈ dedupFirst l :=
  mem_dedupFirstAux l [] f h (by simp)

theorem dedupFirst_ne_nil {l : List String} (h : l ≠ []) : dedupFirst l ≠ [] := by
  cases l with
  | nil => exact absurd rfl h
  | cons x xs =>
    simp [dedupFirst, dedupFirstAux]

/-- C3: when some declared field's dot-path is absent from the
flattened leaf paths of the payload, the merge fails with the
422-classed validation error whose message joins every missing
dot-path, and it does so before any rendering is attempted (the trace
carries no renderer invocation, no write, no job row); a template with
zero declared fields can never fail this check. -/
theorem missing_required_shortcircuits :
    ∀ (env : MergeEnv) (args : MergeArgs) (tpl : Template),
      env.ensureDirs = .ok () → env.findTemplate = some tpl →
      (let missing := (dedupFirst tpl.fields).filter
          (fun k => !((flattenKeys args.data "").contains k))
       missing ≠ [] →
        (mergeTemplate env args).2 = .error (.missingRequired missing) ∧
        mergeErrorStatus (.missingRequired missing) = some 422 ∧
        mergeErrorMessage (.missingRequired missing) =
          "Missing required fields: " ++ String.intercalate " ," missing ∧
        (∀ f, f ∈ missing ↔
          (f ∈ dedupFirst tpl.fields ∧ f ∉ flattenKeys args.data "")) ∧
        (mergeTemplate env args).1.all (fun ef => !isRenderEffect ef) = true ∧
        jobRecordsOf (mergeTemplate env args).1 = [] ∧
        writePathsOf (mergeTemplate env args).1 = []) ∧
      (tpl.fields = [] →
        ∀ m, (mergeTemplate env args).2 ≠ .error (.missingRequired m)) := by
  intro env args tpl h1 h2
  dsimp only
  constructor
  · intro hm
    have hplan := planMerge_missing_eq env args tpl h1 h2 hm
    have hmt : mergeTemplate env args =
        (validationTrace (dedupFirst tpl.fields) (flattenKeys args.data ""),
         .error (.missingRequired ((dedupFirst tpl.fields).filter
           (fun k => !((flattenKeys args.data "").contains k))))) := by
      simp [mergeTemplate, hplan]
    refine ⟨by simp [hmt], rfl, rfl, ?_, ?_, ?_, ?_⟩
    · intro f
      simp [List.mem_filter]
    · rw [hmt]
      exact validationTrace_no_render _ _
    · rw [hmt]
      exact jobRecordsOf_validationTrace _ _
    · rw [hmt]
      exact writePathsOf_validationTrace _ _
  · intro hf m hres
    rcases mergeTemplate_error_inv env args _ hres with hp | ⟨e', he⟩ | ⟨e', he⟩
    · exact planMerge_fields_nil_no_missing env args tpl h2 hf m hp
    · exact MergeError.noConfusion he
    · exact MergeError.noConfusion he

/-- Witness for C3 at a template declaring `required.key` and a payload
supplying only `other`. -/
theorem missing_required_shortcircuits_witness :
    (mergeTemplate mergeEnvDocx argsDocxMissing).2 =
      .error (.missingRequired ["required.key"]) ∧
    mergeErrorStatus (.missingRequired ["required.key"]) = some 422 :=
  ⟨((missing_required_shortcircuits mergeEnvDocx argsDocxMissing docxTemplate
      rfl rfl).1 (by decide)).1,
   ((missing_required_shortcircuits mergeEnvDocx argsDocxMissing docxTemplate
      rfl rfl).1 (by decide)).2.1⟩

/-- C10: a `null` payload flattens to the empty list instead of
throwing, so a merge with a `null` payload against a template that
declares at least one field fails with the 422 missing-required
validation error naming every declared field (each declared field
appears in the reported missing set). -/
theorem null_payload_missing_all :
    flattenKeys .null "" = [] ∧
    ∀ (env : MergeEnv) (args : MergeArgs) (tpl : Template),
      env.ensureDirs = .ok () → env.findTemplate = some tpl →
      args.data = .null → tpl.fields ≠ [] →
      (mergeTemplate env args).2 =
        .error (.missingRequired (dedupFirst tpl.fields)) ∧
      mergeErrorStatus (.missingRequired (dedupFirst tpl.fields)) = some 422 ∧
      (∀ f ∈ tpl.fields, f ∈ dedupFirst tpl.fields) := by
  refine ⟨rfl, ?_⟩
  intro env args tpl h1 h2 hd hf
  have hM : (dedupFirst tpl.fields).filter
      (fun k => !((flattenKeys args.data "").contains k)) = dedupFirst tpl.fields := by
    rw [hd]
    simp [flattenKeys, jsEntries, flattenObj]
  have hm : (dedupFirst tpl.fields).filter
      (fun k => !((flattenKeys args.data "").contains k)) ≠ [] := by
    rw [hM]
    exact dedupFirst_ne_nil hf
  have hplan := planMerge_missing_eq env args tpl h1 h2 hm
  refine ⟨?_, rfl, fun f hfm => mem_dedupFirst hfm⟩
  rw [show (MergeError.missingRequired (dedupFirst tpl.fields)) =
    .missingRequired ((dedupFirst tpl.fields).filter
      (fun k => !((flattenKeys args.data "").contains k))) from by rw [hM]]
  simp [mergeTemplate, hplan]

/-- Witness for C10: the DOCX fixture template with a `null` payload
reports its single declared field as missing. -/
theorem null_payload_missing_all_witness :
    (mergeTemplate mergeEnvDocx argsDocxNull).2 =
      .error (.missingRequired ["required.key"]) ∧
    mergeErrorStatus (.missingRequired ["required.key"]) = some 422 :=
  ⟨(null_payload_missing_all.2 mergeEnvDocx argsDocxNull docxTemplate
      rfl rfl rfl (by decide)).1,
   (null_payload_missing_all.2 mergeEnvDocx argsDocxNull docxTemplate
      rfl rfl rfl (by decide)).2.1⟩

/-! ## Sanitization gating and audit (C8) -/

theorem planMerge_html_eq (env : MergeEnv) (args : MergeArgs) (tpl : Template)
    (buf finalHtml : Bytes)
    (h1 : env.ensureDirs = .ok ()) (h2 : env.findTemplate = some tpl)
    (hmiss : (dedupFirst tpl.fields).filter
      (fun k => !((flattenKeys args.data "").contains k)) = [])
    (hdocx : strEndsCI tpl.name ".docx" = false)
    (hhtml : (strEndsCI tpl.name ".html" || strEndsCI tpl.name ".htm") = true)
    (hbuf : env.templateBytes = .ok buf)
    (hout : args.outputType = "html")
    (hsan : (if args.fromWebhook then
        sanitizeHtmlBuffer env.parse env.serialize (env.mustacheRender buf args.data)
      else .ok (env.mustacheRender buf args.data)) = .ok finalHtml) :
    planMerge env args =
      (validationTrace (dedupFirst tpl.fields) (flattenKeys args.data "") ++
        Effect.render :: auditTrace args.fromWebhook finalHtml
          (env.mustacheRender buf args.data) tpl.id,
       .proceed tpl.id (joinOutputs (outputStamp tpl.name env.now ++ ".html"))
         finalHtml) := by
  unfold planMerge
  rw [h1, h2]
  dsimp only
  rw [hmiss]
  rw [if_neg (by decide)]
  rw [hdocx, hhtml]
  rw [if_neg (by decide)]
  rw [hbuf]
  dsimp only
  rw [if_neg (by decide)]
  rw [hsan]
  dsimp only
  rw [hout]
  rw [if_neg (by decide), if_neg (by decide), if_pos (by decide)]
  simp

theorem auditEventsOf_html_trace (a p : List String) (w : Bool) (f m : Bytes)
    (tid : String) :
    auditEventsOf (validationTrace a p ++ Effect.render :: auditTrace w f m tid) =
      if w && f.length != m.length then [tid] else [] := by
  rw [auditEventsOf_append, auditEventsOf_validationTrace]
  simp [auditEventsOf, auditEventsOf_auditTrace]

/-- C8 (amended): on the HTML path the sanitizer runs only for an
untrusted (webhook) caller; the audit event is emitted exactly when
sanitization changed the *byte length* of the merged artifact; and the
audit warning is only a log entry — it is never surfaced to the caller
and never fails the attempt (with the audit condition either way, a
successful write and job insert still return the job descriptor). -/
theorem sanitize_gating_amended :
    ∀ (env : MergeEnv) (args : MergeArgs) (tpl : Template) (buf : Bytes),
      env.ensureDirs = .ok () → env.findTemplate = some tpl →
      (dedupFirst tpl.fields).filter
        (fun k => !((flattenKeys args.data "").contains k)) = [] →
      strEndsCI tpl.name ".docx" = false →
      (strEndsCI tpl.name ".html" || strEndsCI tpl.name ".htm") = true →
      env.templateBytes = .ok buf →
      args.outputType = "html" →
      ((args.fromWebhook = false →
        (planMerge env args).2 = .proceed tpl.id
          (joinOutputs (outputStamp tpl.name env.now ++ ".html"))
          (env.mustacheRender buf args.data) ∧
        auditEventsOf (planMerge env args).1 = []) ∧
      (∀ finalHtml, args.fromWebhook = true →
        sanitizeHtmlBuffer env.parse env.serialize
          (env.mustacheRender buf args.data) = .ok finalHtml →
        (planMerge env args).2 = .proceed tpl.id
          (joinOutputs (outputStamp tpl.name env.now ++ ".html")) finalHtml ∧
        (auditEventsOf (planMerge env args).1 ≠ [] ↔
          finalHtml.length ≠ (env.mustacheRender buf args.data).length) ∧
        (∀ jid,
          env.writeFile (joinOutputs (outputStamp tpl.name env.now ++ ".html"))
            finalHtml = .ok () →
          env.jobCreate
            { templateId := tpl.id, data := args.data
              outputType := args.outputType, status := "succeeded"
              filePath := joinOutputs (outputStamp tpl.name env.now ++ ".html")
              userId := jsOrNull args.userId } = .ok jid →
          (mergeTemplate env args).2 = .ok
            { jobId := jid
              filePath := joinOutputs (outputStamp tpl.name env.now ++ ".html") }))) := by
  intro env args tpl buf h1 h2 hmiss hdocx hhtml hbuf hout
  constructor
  · intro hw
    have hplan := planMerge_html_eq env args tpl buf (env.mustacheRender buf args.data)
      h1 h2 hmiss hdocx hhtml hbuf hout (by simp [hw])
    constructor
    · rw [hplan]
    · rw [hplan]
      simp [auditEventsOf_html_trace, hw]
  · intro finalHtml hw hs
    have hplan := planMerge_html_eq env args tpl buf finalHtml
      h1 h2 hmiss hdocx hhtml hbuf hout (by rw [hw]; exact hs)
    refine ⟨by rw [hplan], ?_, ?_⟩
    · rw [hplan]
      simp only [auditEventsOf_html_trace, hw, Bool.true_and]
      by_cases hc : finalHtml.length = (env.mustacheRender buf args.data).length
      · simp [hc]
      · simp [hc]
    · intro jid hwr hjc
      simp [mergeTemplate, hplan, hwr, hjc]

/-- C8 (counterexample): a webhook-flagged HTML merge in which
sanitization alters the merged bytes while preserving their length —
the sanitizer output `doctypeLine ++ "X"` (17 bytes) differs from the
17-byte Mustache output — emits *no* audit event, refuting "an audit
log event is emitted exactly when sanitization actually altered the
merged output". -/
theorem sanitize_audit_counterexample :
    sanitizeHtmlBuffer constParse constSer
      (mergeEnvBase.mustacheRender "<h1>TEMPLATE</h1>" payloadTitle) =
      .ok (doctypeLine ++ "X") ∧
    doctypeLine ++ "X" ≠
      mergeEnvBase.mustacheRender "<h1>TEMPLATE</h1>" payloadTitle ∧
    (doctypeLine ++ "X").length =
      (mergeEnvBase.mustacheRender "<h1>TEMPLATE</h1>" payloadTitle).length ∧
    auditEventsOf (mergeTemplate mergeEnvBase argsHtmlWebhook).1 = [] := by
  refine ⟨rfl, by decide, by decide, rfl⟩

/-- Witness for the amended C8 statement: a trusted-caller HTML merge
proceeds with the unsanitized Mustache output and emits no audit
event. -/
theorem sanitize_gating_amended_witness :
    (planMerge mergeEnvBase argsHtmlTrusted).2 = .proceed "tpl-html-1"
      (joinOutputs (outputStamp "9999-sample.html" 1712345 ++ ".html"))
      "AAAAAAAAAAAAAAAAA" ∧
    auditEventsOf (planMerge mergeEnvBase argsHtmlTrusted).1 = [] :=
  (sanitize_gating_amended mergeEnvBase argsHtmlTrusted htmlTemplate
    "<h1>TEMPLATE</h1>" rfl rfl (by decide) (by decide) (by decide) rfl rfl).1 rfl
